import Mathlib

/-!
Verification of the JobTask competency-assessment backend.

The definitions below are a shallow embedding of the assessment service
(`assessment.service` in the repository): Mongo documents become Lean
structures, the database becomes an explicit `Db` state, and each service
operation becomes a function `Db → args → Except ApiError (Db × output)`
(an error models a thrown `ApiError`, caught by `serviceWrapper`; the
transaction/throw-before-write discipline of the source means an erroring
operation leaves the store unchanged, which `stepDb` makes explicit).
Dates are abstracted as natural-number timestamps passed in as `now`,
and Mongo ObjectIds become natural-number ids.
-/

namespace JobTask

/-- Competency levels, from `types/system.types` (`CompetencyLevel`). -/
inductive CompetencyLevel
  | A1 | A2 | B1 | B2 | C1 | C2
deriving DecidableEq, Repr

/-- The ordered list of levels used by `shouldUpdateUserLevel`
(`levelOrder` in the assessment service). -/
def levelOrder : List CompetencyLevel :=
  [.A1, .A2, .B1, .B2, .C1, .C2]

/-- Function `shouldUpdateUserLevel` from the assessment service: update iff there is
no current level, or the new level's index in `levelOrder` is strictly
greater than the current one's. -/
def shouldUpdateUserLevel (currentLevel : Option CompetencyLevel)
    (newLevel : CompetencyLevel) : Bool :=
  match currentLevel with
  | none => true
  | some cur => levelOrder.indexOf newLevel > levelOrder.indexOf cur

/-- Result record of `calculateProgression`. -/
structure ProgressionResult where
  levelAchieved : Option CompetencyLevel
  canProceedToNextStep : Bool
  blocksRetake : Bool
deriving DecidableEq, Repr

/-- Function `calculateProgression` from the assessment service: the switch over the
step with the `<25 / <50 / <75 / else` threshold chain; outside steps 1-3 the
switch falls through and the initial values are returned. -/
def calculateProgression (step score : Nat) : ProgressionResult :=
  match step with
  | 1 =>
    if score < 25 then
      { levelAchieved := none, canProceedToNextStep := false, blocksRetake := true }
    else if score < 50 then
      { levelAchieved := some .A1, canProceedToNextStep := false, blocksRetake := false }
    else if score < 75 then
      { levelAchieved := some .A2, canProceedToNextStep := false, blocksRetake := false }
    else
      { levelAchieved := some .A2, canProceedToNextStep := true, blocksRetake := false }
  | 2 =>
    if score < 25 then
      { levelAchieved := some .A2, canProceedToNextStep := false, blocksRetake := false }
    else if score < 50 then
      { levelAchieved := some .B1, canProceedToNextStep := false, blocksRetake := false }
    else if score < 75 then
      { levelAchieved := some .B2, canProceedToNextStep := false, blocksRetake := false }
    else
      { levelAchieved := some .B2, canProceedToNextStep := true, blocksRetake := false }
  | 3 =>
    if score < 25 then
      { levelAchieved := some .B2, canProceedToNextStep := false, blocksRetake := false }
    else if score < 50 then
      { levelAchieved := some .C1, canProceedToNextStep := false, blocksRetake := false }
    else
      { levelAchieved := some .C2, canProceedToNextStep := false, blocksRetake := false }
  | _ =>
    { levelAchieved := none, canProceedToNextStep := false, blocksRetake := false }

/-- Function `getStepLevels` from `utils/questionHelpers`: the two levels tested by
each step. -/
def getStepLevels (step : Nat) : List CompetencyLevel :=
  match step with
  | 1 => [.A1, .A2]
  | 2 => [.B1, .B2]
  | 3 => [.C1, .C2]
  | _ => []

/-- Spec-side progression table, written from the spec's threshold table
(one row per step, columns score<25, 25-49, 50-74, >=75; step 3 is terminal
with no canProceed column). Used only for refinement against
`calculateProgression`. -/
def progressionTableSpec (step score : Nat) : ProgressionResult :=
  if step = 1 then
    if score < 25 then
      { levelAchieved := none, canProceedToNextStep := false, blocksRetake := true }
    else if score < 50 then
      { levelAchieved := some .A1, canProceedToNextStep := false, blocksRetake := false }
    else if score < 75 then
      { levelAchieved := some .A2, canProceedToNextStep := false, blocksRetake := false }
    else
      { levelAchieved := some .A2, canProceedToNextStep := true, blocksRetake := false }
  else if step = 2 then
    if score < 25 then
      { levelAchieved := some .A2, canProceedToNextStep := false, blocksRetake := false }
    else if score < 50 then
      { levelAchieved := some .B1, canProceedToNextStep := false, blocksRetake := false }
    else if score < 75 then
      { levelAchieved := some .B2, canProceedToNextStep := false, blocksRetake := false }
    else
      { levelAchieved := some .B2, canProceedToNextStep := true, blocksRetake := false }
  else if step = 3 then
    if score < 25 then
      { levelAchieved := some .B2, canProceedToNextStep := false, blocksRetake := false }
    else if score < 50 then
      { levelAchieved := some .C1, canProceedToNextStep := false, blocksRetake := false }
    else
      { levelAchieved := some .C2, canProceedToNextStep := false, blocksRetake := false }
  else
    { levelAchieved := none, canProceedToNextStep := false, blocksRetake := false }

/-- Modelled from the spec: the repository imports `utils/httpStatus`, whose
source file is not present; the numeric codes follow the spec's failure
table (403 ineligible, 409 pool empty, 400 already answered / invalid state,
404 not found) and the standard HTTP status names used by the services. -/
def httpStatus.OK : Nat := 200

/-- Modelled from the spec: see `httpStatus.OK`. -/
def httpStatus.BAD_REQUEST : Nat := 400

/-- Modelled from the spec: see `httpStatus.OK`. -/
def httpStatus.FORBIDDEN : Nat := 403

/-- Modelled from the spec: see `httpStatus.OK`. -/
def httpStatus.NOT_FOUND : Nat := 404

/-- Modelled from the spec: see `httpStatus.OK`. -/
def httpStatus.CONFLICT : Nat := 409

/-- Modelled from the spec: `utils/ApiError` is not present under the sources;
the spec's error envelope carries a status code and a message, matching every
`new ApiError(status, message)` call site in the services. -/
structure ApiError where
  statusCode : Nat
  message : String
deriving DecidableEq, Repr

/-- A question document (`Question.model` / `IQuestion`), reduced to the
fields the assessment service reads. -/
structure Question where
  id : Nat
  competencyId : Nat
  level : CompetencyLevel
  correctOptionIndex : Nat
  isActive : Bool
deriving DecidableEq, Repr

/-- Test status enum from `types/system.types` (`TestStatus`). -/
inductive TestStatus
  | in_progress | completed | failed | failed_no_retake | abandoned
deriving DecidableEq, Repr

/-- A test-session document (`Test.model` / `ITest`), with dates as natural
timestamps. -/
structure Test where
  id : Nat
  userId : Nat
  step : Nat
  levelsTested : List CompetencyLevel
  score : Option Nat
  totalQuestions : Nat
  correctAnswers : Option Nat
  status : TestStatus
  questionOrder : List Nat
  currentQuestionIndex : Nat
  currentQuestionId : Nat
  questionsAnswered : Nat
  startedAt : Nat
  completedAt : Option Nat
  timeLimit : Nat
  timeSpent : Option Nat
  lastQuestionStartTime : Nat
  levelAchieved : Option CompetencyLevel
  canProceedToNextStep : Bool
  blocksRetake : Bool
deriving DecidableEq, Repr

/-- A response document (`TestResponse.model` / `ITestResponse`). -/
structure TestResponse where
  testId : Nat
  questionId : Nat
  questionOrder : Nat
  selectedOptionIndex : Option Nat
  isCorrect : Option Bool
  timeSpent : Option Nat
  questionStartTime : Option Nat
  answeredAt : Option Nat
  isSkipped : Bool
deriving DecidableEq, Repr

/-- Assessment status enum from `types/system.types` (`AssessmentStatus`). -/
inductive AssessmentStatus
  | eligible | blocked_step1_failure
deriving DecidableEq, Repr

/-- A user document, reduced to the fields the assessment service reads and
writes. -/
structure User where
  id : Nat
  email : String
  assessmentStatus : AssessmentStatus
  highestLevelAchieved : Option CompetencyLevel
deriving DecidableEq, Repr

/-- A certificate document (`Certificate.model`), as created by
`completeAssessment`. -/
structure Certificate where
  userId : Nat
  levelAchieved : CompetencyLevel
  testId : Nat
  issuedDate : Nat
deriving DecidableEq, Repr

/-- The persistent store: one list per Mongo collection, plus the id counter
used to model fresh ObjectId generation for new tests. -/
structure Db where
  users : List User
  questions : List Question
  tests : List Test
  responses : List TestResponse
  certificates : List Certificate
  nextTestId : Nat
deriving DecidableEq, Repr

/-- Model of `Test.findById`. -/
def findTest (db : Db) (testId : Nat) : Option Test :=
  db.tests.find? (fun t => t.id == testId)

/-- Model of `Question.findById`. -/
def findQuestion (db : Db) (questionId : Nat) : Option Question :=
  db.questions.find? (fun q => q.id == questionId)

/-- Model of `TestResponse.findOne({testId, questionId})`. -/
def findResponse (db : Db) (testId questionId : Nat) : Option TestResponse :=
  db.responses.find? (fun r => r.testId == testId && r.questionId == questionId)

/-- Model of `TestResponse.findOne({testId, questionOrder})`. -/
def findResponseByOrder (db : Db) (testId ord : Nat) : Option TestResponse :=
  db.responses.find? (fun r => r.testId == testId && r.questionOrder == ord)

/-- Mongoose `document.save()` after a `findOne`: replace the first element
satisfying the predicate by its updated version. -/
def updateFirst (p : α → Bool) (f : α → α) : List α → List α
  | [] => []
  | a :: as => if p a then f a :: as else a :: updateFirst p f as

/-- Save an updated response found by `(testId, questionId)`. -/
def saveResponse (db : Db) (testId questionId : Nat)
    (f : TestResponse → TestResponse) : Db :=
  { db with responses :=
      updateFirst (fun r => r.testId == testId && r.questionId == questionId) f db.responses }

/-- Save an updated response found by `(testId, questionOrder)`. -/
def saveResponseByOrder (db : Db) (testId ord : Nat)
    (f : TestResponse → TestResponse) : Db :=
  { db with responses :=
      updateFirst (fun r => r.testId == testId && r.questionOrder == ord) f db.responses }

/-- Save an updated test found by id. -/
def saveTest (db : Db) (testId : Nat) (f : Test → Test) : Db :=
  { db with tests := updateFirst (fun t => t.id == testId) f db.tests }

/-- The ordering used by `Question.find(...).sort({competencyId: 1, level: 1})`
(levels compare as their strings, which agrees with `levelOrder`). -/
def questionSortRel (a b : Question) : Prop :=
  a.competencyId < b.competencyId
    ∨ (a.competencyId = b.competencyId
        ∧ levelOrder.indexOf a.level ≤ levelOrder.indexOf b.level)

instance : DecidableRel questionSortRel := by
  intro a b
  unfold questionSortRel
  infer_instance

/-- Function `checkUserEligibility` from the assessment service (the wrapped service
result is modelled as `Except`: a `.error` is the `ApiError` the wrapper
catches). -/
def checkUserEligibility (db : Db) (userId step : Nat) : Except ApiError Unit :=
  match db.users.find? (fun u => u.id == userId) with
  | none => .error ⟨httpStatus.NOT_FOUND, "User not found"⟩
  | some user =>
    if user.assessmentStatus = .blocked_step1_failure then
      .error ⟨httpStatus.FORBIDDEN, "Assessment access blocked due to Step 1 failure (<25%)"⟩
    else if step > 1 then
      match db.tests.find? (fun t =>
          t.userId == userId && t.step == step - 1
            && t.status == .completed && t.canProceedToNextStep) with
      | none =>
        .error ⟨httpStatus.FORBIDDEN,
          s!"Must complete Step {step - 1} with >=75% to access Step {step}"⟩
      | some _ => .ok ()
    else .ok ()

/-- Payload of a successful `startAssessment` (the in-progress branch also
reports elapsed time and progress). -/
structure StartOut where
  message : String
  testId : Nat
  currentQuestionIndex : Nat
  totalQuestions : Nat
  timeElapsed : Option Nat
  questionsAnswered : Option Nat
deriving DecidableEq, Repr

/-- Function `startAssessment` from the assessment service: eligibility check, the
idempotent in-progress branch, pool fetch (filter by the step's levels and
`isActive`, sorted by competency then level), the empty-pool `CONFLICT`, and
creation of the test plus one response row per question. -/
def startAssessment (db : Db) (userId step now : Nat) :
    Except ApiError (Db × StartOut) :=
  match checkUserEligibility db userId step with
  | .error e => .error ⟨httpStatus.FORBIDDEN, e.message⟩
  | .ok _ =>
  match db.tests.find? (fun t =>
      t.userId == userId && t.step == step && t.status == .in_progress) with
  | some activeTest =>
    .ok (db,
      { message := "Assessment already in progress"
        testId := activeTest.id
        currentQuestionIndex := activeTest.currentQuestionIndex
        totalQuestions := activeTest.totalQuestions
        timeElapsed := some ((now - activeTest.startedAt) / 1000)
        questionsAnswered := some activeTest.questionsAnswered })
  | none =>
    let stepLevels := getStepLevels step
    let questions := List.insertionSort questionSortRel
      (db.questions.filter (fun q => stepLevels.contains q.level && q.isActive))
    if questions.length = 0 then
      .error ⟨httpStatus.CONFLICT, s!"No questions available for Step {step}"⟩
    else
      let questionOrder := questions.map (fun q => q.id)
      let test : Test :=
        { id := db.nextTestId
          userId := userId
          step := step
          levelsTested := stepLevels
          score := none
          totalQuestions := questions.length
          correctAnswers := none
          status := .in_progress
          questionOrder := questionOrder
          currentQuestionIndex := 0
          currentQuestionId := questionOrder.headD 0
          questionsAnswered := 0
          startedAt := now
          completedAt := none
          timeLimit := questions.length * 60
          timeSpent := none
          lastQuestionStartTime := now
          levelAchieved := none
          canProceedToNextStep := false
          blocksRetake := false }
      let newResponses := questions.enum.map (fun iq =>
        { testId := test.id
          questionId := iq.2.id
          questionOrder := iq.1
          selectedOptionIndex := none
          isCorrect := none
          timeSpent := none
          questionStartTime := if iq.1 = 0 then some now else none
          answeredAt := none
          isSkipped := false : TestResponse })
      .ok ({ db with
              tests := db.tests ++ [test]
              responses := db.responses ++ newResponses
              nextTestId := db.nextTestId + 1 },
        { message := "Assessment started successfully"
          testId := test.id
          currentQuestionIndex := 0
          totalQuestions := questions.length
          timeElapsed := none
          questionsAnswered := none })

/-- Payload of a successful `submitAnswer`. -/
structure SubmitOut where
  isCorrect : Bool
  currentQuestionIndex : Nat
  isLastQuestion : Bool
  autoAdvanced : Bool
deriving DecidableEq, Repr

/-- Function `submitAnswer` from the assessment service: guards (test in progress,
question exists, response exists, not already answered), the response update,
the `questionsAnswered` increment, and the auto-advance to the next question
with the next response's `questionStartTime` stamped if unset. -/
def submitAnswer (db : Db) (testId questionId selectedOptionIndex timeSpent now : Nat) :
    Except ApiError (Db × SubmitOut) :=
  match findTest db testId with
  | none => .error ⟨httpStatus.BAD_REQUEST, "Test not found or not in progress"⟩
  | some test =>
  if test.status ≠ .in_progress then
    .error ⟨httpStatus.BAD_REQUEST, "Test not found or not in progress"⟩
  else
  match findQuestion db questionId with
  | none => .error ⟨httpStatus.NOT_FOUND, "Question not found"⟩
  | some question =>
  match findResponse db testId questionId with
  | none => .error ⟨httpStatus.NOT_FOUND, "Test response not found"⟩
  | some testResponse =>
  if testResponse.selectedOptionIndex ≠ none then
    .error ⟨httpStatus.BAD_REQUEST, "Question already answered"⟩
  else
    let isCorrect := selectedOptionIndex = question.correctOptionIndex
    let db1 := saveResponse db testId questionId (fun r =>
      { r with
          selectedOptionIndex := some selectedOptionIndex
          isCorrect := some isCorrect
          timeSpent := some timeSpent
          answeredAt := some now
          isSkipped := false })
    let test1 := { test with questionsAnswered := test.questionsAnswered + 1 }
    if test1.currentQuestionIndex < test1.totalQuestions - 1 then
      let newIndex := test1.currentQuestionIndex + 1
      let test2 := { test1 with
        currentQuestionIndex := newIndex
        currentQuestionId := test1.questionOrder.getD newIndex 0
        lastQuestionStartTime := now }
      let db2 := saveResponseByOrder db1 testId newIndex (fun r =>
        if r.questionStartTime = none then { r with questionStartTime := some now } else r)
      let db3 := saveTest db2 testId (fun _ => test2)
      .ok (db3,
        { isCorrect := isCorrect
          currentQuestionIndex := test2.currentQuestionIndex
          isLastQuestion := test2.currentQuestionIndex ≥ test2.totalQuestions - 1
          autoAdvanced := test2.currentQuestionIndex < test2.totalQuestions })
    else
      let db3 := saveTest db1 testId (fun _ => test1)
      .ok (db3,
        { isCorrect := isCorrect
          currentQuestionIndex := test1.currentQuestionIndex
          isLastQuestion := test1.currentQuestionIndex ≥ test1.totalQuestions - 1
          autoAdvanced := test1.currentQuestionIndex < test1.totalQuestions })

/-- Payload of a successful `skipQuestion`. -/
structure SkipOut where
  currentQuestionIndex : Nat
  isLastQuestion : Bool
  autoAdvanced : Bool
deriving DecidableEq, Repr

/-- Function `skipQuestion` from the assessment service: guards (test in progress,
current response exists, not already answered or skipped), marking the
current response skipped, and the same auto-advance as `submitAnswer`;
note the source does not touch `questionsAnswered` here. -/
def skipQuestion (db : Db) (testId now : Nat) :
    Except ApiError (Db × SkipOut) :=
  match findTest db testId with
  | none => .error ⟨httpStatus.BAD_REQUEST, "Test not found or not in progress"⟩
  | some test =>
  if test.status ≠ .in_progress then
    .error ⟨httpStatus.BAD_REQUEST, "Test not found or not in progress"⟩
  else
  match findResponseByOrder db testId test.currentQuestionIndex with
  | none => .error ⟨httpStatus.NOT_FOUND, "Current question response not found"⟩
  | some currentResponse =>
  if currentResponse.selectedOptionIndex ≠ none || currentResponse.isSkipped then
    .error ⟨httpStatus.BAD_REQUEST, "Question already answered or skipped"⟩
  else
    let db1 := saveResponseByOrder db testId test.currentQuestionIndex (fun r =>
      { r with isSkipped := true, answeredAt := some now })
    if test.currentQuestionIndex < test.totalQuestions - 1 then
      let newIndex := test.currentQuestionIndex + 1
      let test2 := { test with
        currentQuestionIndex := newIndex
        currentQuestionId := test.questionOrder.getD newIndex 0
        lastQuestionStartTime := now }
      let db2 := saveResponseByOrder db1 testId newIndex (fun r =>
        if r.questionStartTime = none then { r with questionStartTime := some now } else r)
      let db3 := saveTest db2 testId (fun _ => test2)
      .ok (db3,
        { currentQuestionIndex := test2.currentQuestionIndex
          isLastQuestion := test2.currentQuestionIndex ≥ test2.totalQuestions - 1
          autoAdvanced := test2.currentQuestionIndex < test2.totalQuestions })
    else
      let db3 := saveTest db1 testId (fun _ => test)
      .ok (db3,
        { currentQuestionIndex := test.currentQuestionIndex
          isLastQuestion := test.currentQuestionIndex ≥ test.totalQuestions - 1
          autoAdvanced := test.currentQuestionIndex < test.totalQuestions })

/-- Navigation direction for `navigateQuestion`. -/
inductive Direction
  | next | previous
deriving DecidableEq, Repr

/-- Payload of a successful `navigateQuestion`. -/
structure NavOut where
  currentQuestionIndex : Nat
  direction : Direction
deriving DecidableEq, Repr

/-- Function `navigateQuestion` from the assessment service: `next` requires the
current response resolved and index < N-1; `previous` requires index > 0;
otherwise a `Cannot navigate` error. -/
def navigateQuestion (db : Db) (testId : Nat) (direction : Direction) (now : Nat) :
    Except ApiError (Db × NavOut) :=
  match findTest db testId with
  | none => .error ⟨httpStatus.BAD_REQUEST, "Test not found or not in progress"⟩
  | some test =>
  if test.status ≠ .in_progress then
    .error ⟨httpStatus.BAD_REQUEST, "Test not found or not in progress"⟩
  else
  match direction with
  | .next =>
    let isCurrentQuestionAnswered :=
      match findResponseByOrder db testId test.currentQuestionIndex with
      | some r => r.selectedOptionIndex.isSome || r.isSkipped
      | none => false
    if !isCurrentQuestionAnswered then
      .error ⟨httpStatus.BAD_REQUEST,
        "Must submit answer or skip current question before proceeding to next"⟩
    else if test.currentQuestionIndex < test.totalQuestions - 1 then
      let newIndex := test.currentQuestionIndex + 1
      let db1 := saveTest db testId (fun t => { t with
        currentQuestionIndex := newIndex
        currentQuestionId := t.questionOrder.getD newIndex 0
        lastQuestionStartTime := now })
      .ok (db1, { currentQuestionIndex := newIndex, direction := direction })
    else
      .error ⟨httpStatus.BAD_REQUEST, "Cannot navigate next"⟩
  | .previous =>
    if test.currentQuestionIndex > 0 then
      let newIndex := test.currentQuestionIndex - 1
      let db1 := saveTest db testId (fun t => { t with
        currentQuestionIndex := newIndex
        currentQuestionId := t.questionOrder.getD newIndex 0
        lastQuestionStartTime := now })
      .ok (db1, { currentQuestionIndex := newIndex, direction := direction })
    else
      .error ⟨httpStatus.BAD_REQUEST, "Cannot navigate previous"⟩

/-- Rounding of `num / den` to the nearest integer, half up: the exact-rational
reading of `Math.round((correctAnswers / responses.length) * 100)`. -/
def natRound (num den : Nat) : Nat :=
  (2 * num + den) / (2 * den)

/-- Payload of a successful `completeAssessment` (certificate reported when a
level was achieved). -/
structure CompleteOut where
  testId : Nat
  step : Nat
  score : Nat
  levelAchieved : Option CompetencyLevel
  canProceedToNextStep : Bool
  blocksRetake : Bool
  certificateCreated : Bool
deriving DecidableEq, Repr

/-- Function `completeAssessment` from the assessment service: guard on already
completed, score from the test's responses (`filter(r => r.isCorrect)` over
all of them, denominator their count), `calculateProgression`, the test and
user updates (blocking and the `shouldUpdateUserLevel` ratchet), and the
certificate created when a level was achieved; the surrounding transaction
means an error leaves the store untouched. -/
def completeAssessment (db : Db) (testId totalTimeSpent now : Nat) :
    Except ApiError (Db × CompleteOut) :=
  match findTest db testId with
  | none => .error ⟨httpStatus.NOT_FOUND, "Test not found"⟩
  | some test =>
  if test.status = .completed then
    .error ⟨httpStatus.BAD_REQUEST, "Test already completed"⟩
  else
  let responses := db.responses.filter (fun r => r.testId == testId)
  let correctAnswers := (responses.filter (fun r => r.isCorrect == some true)).length
  let score := natRound (correctAnswers * 100) responses.length
  let prog := calculateProgression test.step score
  let test1 := { test with
    status := .completed
    completedAt := some now
    score := some score
    correctAnswers := some correctAnswers
    timeSpent := some totalTimeSpent
    levelAchieved :=
      match prog.levelAchieved with
      | some l => some l
      | none => test.levelAchieved
    canProceedToNextStep := prog.canProceedToNextStep
    blocksRetake := prog.blocksRetake }
  match db.users.find? (fun u => u.id == test.userId) with
  | none => .error ⟨httpStatus.NOT_FOUND, "User not found"⟩
  | some user =>
  let user1 := { user with
    assessmentStatus :=
      if prog.blocksRetake then .blocked_step1_failure else user.assessmentStatus
    highestLevelAchieved :=
      match prog.levelAchieved with
      | some l =>
        if shouldUpdateUserLevel user.highestLevelAchieved l then some l
        else user.highestLevelAchieved
      | none => user.highestLevelAchieved }
  let newCertificates :=
    match prog.levelAchieved with
    | some l => [{ userId := test.userId, levelAchieved := l, testId := testId,
                   issuedDate := now : Certificate }]
    | none => []
  .ok ({ db with
          tests := updateFirst (fun t => t.id == testId) (fun _ => test1) db.tests
          users := updateFirst (fun u => u.id == test.userId) (fun _ => user1) db.users
          certificates := db.certificates ++ newCertificates },
    { testId := testId
      step := test.step
      score := score
      levelAchieved := test1.levelAchieved
      canProceedToNextStep := prog.canProceedToNextStep
      blocksRetake := prog.blocksRetake
      certificateCreated := prog.levelAchieved.isSome })

/-- One client-visible operation of the assessment engine. -/
inductive Op
  | start (userId step now : Nat)
  | submit (testId questionId selectedOptionIndex timeSpent now : Nat)
  | skip (testId now : Nat)
  | navigate (testId : Nat) (direction : Direction) (now : Nat)
  | complete (testId totalTimeSpent now : Nat)
deriving DecidableEq, Repr

/-- The store after one operation: the new store on success, the old one on a
thrown `ApiError` (the source throws before writing, and `completeAssessment`
aborts its transaction). -/
def stepDb (db : Db) : Op → Db
  | .start userId step now =>
    match startAssessment db userId step now with
    | .ok (db', _) => db'
    | .error _ => db
  | .submit testId questionId sel ts now =>
    match submitAnswer db testId questionId sel ts now with
    | .ok (db', _) => db'
    | .error _ => db
  | .skip testId now =>
    match skipQuestion db testId now with
    | .ok (db', _) => db'
    | .error _ => db
  | .navigate testId direction now =>
    match navigateQuestion db testId direction now with
    | .ok (db', _) => db'
    | .error _ => db
  | .complete testId tts now =>
    match completeAssessment db testId tts now with
    | .ok (db', _) => db'
    | .error _ => db

/-- Stores reachable from `init` by any sequence of engine operations. -/
inductive Reachable (init : Db) : Db → Prop
  | refl : Reachable init init
  | step (op : Op) {db : Db} : Reachable init db → Reachable init (stepDb db op)

/-- An initial store: no sessions or responses yet, and distinct question ids
(Mongo `_id` uniqueness of the question bank). -/
def InitOk (db : Db) : Prop :=
  db.tests = [] ∧ db.responses = [] ∧ (db.questions.map (fun q => q.id)).Nodup

instance (db : Db) : Decidable (InitOk db) := by
  unfold InitOk
  infer_instance

/-- The transitions a single response row can make under one engine operation:
unchanged resolution (possibly a `questionStartTime` stamp), answered from
unanswered, or skipped from unanswered-and-unskipped; the row's identity never
changes. -/
def respStep (r r' : TestResponse) : Prop :=
  r'.testId = r.testId ∧ r'.questionId = r.questionId ∧
  ((r'.selectedOptionIndex = r.selectedOptionIndex ∧ r'.isSkipped = r.isSkipped)
    ∨ (r.selectedOptionIndex = none ∧ r'.selectedOptionIndex.isSome = true
        ∧ r'.isSkipped = false)
    ∨ (r.selectedOptionIndex = none ∧ r.isSkipped = false
        ∧ r'.selectedOptionIndex = none ∧ r'.isSkipped = true))

/-- A question of the concrete scenario store (competency 1, level A1,
correct option 0). -/
def q10 : Question :=
  { id := 10, competencyId := 1, level := .A1, correctOptionIndex := 0, isActive := true }

/-- A question of the concrete scenario store (competency 2, level A2,
correct option 1). -/
def q11 : Question :=
  { id := 11, competencyId := 2, level := .A2, correctOptionIndex := 1, isActive := true }

/-- An eligible user with no level achieved yet. -/
def userA : User :=
  { id := 1, email := "a@example.com", assessmentStatus := .eligible,
    highestLevelAchieved := none }

/-- An eligible user whose stored highest level is B1. -/
def userB : User :=
  { id := 2, email := "b@example.com", assessmentStatus := .eligible,
    highestLevelAchieved := some .B1 }

/-- The concrete initial store used by the witnesses and counterexamples. -/
def db0 : Db :=
  { users := [userA, userB], questions := [q10, q11], tests := [], responses := [],
    certificates := [], nextTestId := 100 }

/-- An initial store whose question bank is empty. -/
def dbNoQ : Db :=
  { users := [userA], questions := [], tests := [], responses := [],
    certificates := [], nextTestId := 100 }

/-- Store after user 1 starts step 1: test 100 over questions [10, 11]. -/
def dbStarted : Db := stepDb db0 (.start 1 1 0)

/-- Store after user 1 skips question 10 (index moved to 1). -/
def dbSkipped : Db := stepDb dbStarted (.skip 100 1)

/-- Store after user 1 answers question 10 correctly (index moved to 1). -/
def dbAnswered : Db := stepDb dbStarted (.submit 100 10 0 5 1)

/-- Store after user 1 also answers question 11 incorrectly. -/
def dbBoth : Db := stepDb dbAnswered (.submit 100 11 0 5 2)

/-- Store after user 2 (stored level B1) starts step 1. -/
def dbStartedB : Db := stepDb db0 (.start 2 1 0)

/-- Store after user 2 answers question 10 correctly and question 11
incorrectly (a 50% session, yielding A2 on completion). -/
def dbBothB : Db := stepDb (stepDb dbStartedB (.submit 100 10 0 5 1)) (.submit 100 11 0 5 2)

/-- Store after user 1 navigates back from index 1 to index 0. -/
def dbPrev : Db := stepDb dbAnswered (.navigate 100 .previous 2)

/-- Store after user 1 navigates forward again from index 0 to index 1. -/
def dbNexted : Db := stepDb dbPrev (.navigate 100 .next 3)

/-- The test document of `dbStarted`. -/
def testStarted : Test :=
  { id := 100, userId := 1, step := 1, levelsTested := [.A1, .A2], score := none,
    totalQuestions := 2, correctAnswers := none, status := .in_progress,
    questionOrder := [10, 11], currentQuestionIndex := 0, currentQuestionId := 10,
    questionsAnswered := 0, startedAt := 0, completedAt := none, timeLimit := 120,
    timeSpent := none, lastQuestionStartTime := 0, levelAchieved := none,
    canProceedToNextStep := false, blocksRetake := false }

/-- The test document of `dbAnswered`. -/
def testAnswered : Test :=
  { testStarted with
    currentQuestionIndex := 1
    currentQuestionId := 11
    questionsAnswered := 1
    lastQuestionStartTime := 1 }

/-- The test document of `dbSkipped`. -/
def testSkipped : Test :=
  { testStarted with
    currentQuestionIndex := 1
    currentQuestionId := 11
    questionsAnswered := 0
    lastQuestionStartTime := 1 }

/-- The test document of `dbPrev`. -/
def testPrev : Test :=
  { testStarted with
    currentQuestionIndex := 0
    currentQuestionId := 10
    questionsAnswered := 1
    lastQuestionStartTime := 2 }

/-- The test document of `dbNexted`. -/
def testNexted : Test :=
  { testStarted with
    currentQuestionIndex := 1
    currentQuestionId := 11
    questionsAnswered := 1
    lastQuestionStartTime := 3 }

/-- The test document of `dbBoth`. -/
def testBoth : Test :=
  { testStarted with
    currentQuestionIndex := 1
    currentQuestionId := 11
    questionsAnswered := 2
    lastQuestionStartTime := 1 }

/-- Count of a test's response rows. -/
def responseCount (db : Db) (tid : Nat) : Nat :=
  db.responses.countP (fun r => r.testId == tid)

/-- Count of a test's answered response rows. -/
def answeredCount (db : Db) (tid : Nat) : Nat :=
  db.responses.countP (fun r => r.testId == tid && r.selectedOptionIndex.isSome)

/-- The store invariant maintained by every engine operation: question and
test ids are unique and below the id counter, each test owns exactly
`totalQuestions` response rows (one per question id, unique per pair),
the current index is in range, and `questionsAnswered` counts exactly the
answered response rows. -/
def WF (db : Db) : Prop :=
  (db.questions.map (fun q => q.id)).Nodup
  ∧ (∀ t ∈ db.tests, t.id < db.nextTestId)
  ∧ (db.tests.map (fun t => t.id)).Nodup
  ∧ (∀ r ∈ db.responses, r.testId < db.nextTestId)
  ∧ (∀ t ∈ db.tests, responseCount db t.id = t.totalQuestions)
  ∧ (∀ t ∈ db.tests, t.questionOrder.length = t.totalQuestions ∧ 0 < t.totalQuestions)
  ∧ (∀ t ∈ db.tests, t.currentQuestionIndex < t.totalQuestions)
  ∧ (∀ t ∈ db.tests, t.questionsAnswered = answeredCount db t.id)
  ∧ (db.responses.map (fun r => (r.testId, r.questionId))).Nodup

instance (db : Db) : Decidable (WF db) := by
  unfold WF responseCount answeredCount
  infer_instance

/-- The response row for question 10 as created by startAssessment. -/
def resp10Started : TestResponse :=
  { testId := 100, questionId := 10, questionOrder := 0, selectedOptionIndex := none,
    isCorrect := none, timeSpent := none, questionStartTime := some 0,
    answeredAt := none, isSkipped := false }

/-- The response row for question 10 after it was skipped. -/
def resp10Skipped : TestResponse :=
  { resp10Started with isSkipped := true, answeredAt := some 1 }

/-- Store after completing user 2's 50% session (level A2 achieved, stored
B1 untouched). -/
def dbDoneB : Db := stepDb dbBothB (.complete 100 60 10)

theorem updateFirst_of_find?_none {p : α → Bool} {f : α → α} :
    ∀ {l : List α}, l.find? p = none → updateFirst p f l = l := by
  intro l
  induction l with
  | nil => intro _; rfl
  | cons a as ih =>
    intro h
    rw [List.find?_cons] at h
    unfold updateFirst
    cases hpa : p a with
    | true => rw [hpa] at h; cases h
    | false => rw [hpa] at h; simp [ih h]

theorem length_updateFirst {p : α → Bool} {f : α → α} :
    ∀ {l : List α}, (updateFirst p f l).length = l.length := by
  intro l
  induction l with
  | nil => rfl
  | cons a as ih =>
    unfold updateFirst
    cases hpa : p a <;> simp [ih]

theorem map_updateFirst {p : α → Bool} {f : α → α} (g : α → β)
    (hf : ∀ a, p a = true → g (f a) = g a) :
    ∀ {l : List α}, (updateFirst p f l).map g = l.map g := by
  intro l
  induction l with
  | nil => rfl
  | cons a as ih =>
    unfold updateFirst
    cases hpa : p a with
    | true => simp [hf a hpa]
    | false => simp [ih]

theorem countP_updateFirst_congr {p : α → Bool} {f : α → α} (q : α → Bool)
    (hf : ∀ a, p a = true → q (f a) = q a) :
    ∀ {l : List α}, (updateFirst p f l).countP q = l.countP q := by
  intro l
  induction l with
  | nil => rfl
  | cons a as ih =>
    unfold updateFirst
    cases hpa : p a with
    | true => simp [List.countP_cons, hf a hpa]
    | false => simp [List.countP_cons, ih]

theorem countP_updateFirst_find? {p : α → Bool} {f : α → α} {q : α → Bool}
    {a : α} :
    ∀ {l : List α}, l.find? p = some a → q a = false → q (f a) = true →
      (updateFirst p f l).countP q = l.countP q + 1 := by
  intro l
  induction l with
  | nil => intro h; cases h
  | cons b bs ih =>
    intro h hqa hqfa
    rw [List.find?_cons] at h
    unfold updateFirst
    cases hpb : p b with
    | true =>
      rw [hpb] at h
      have hab : b = a := by cases h; rfl
      subst hab
      simp [List.countP_cons, hqa, hqfa]
    | false =>
      rw [hpb] at h
      simp [List.countP_cons, ih h hqa hqfa]
      omega

theorem mem_updateFirst_cases {p : α → Bool} {f : α → α} {a : α} :
    ∀ {l : List α}, l.find? p = some a →
      ∀ b ∈ updateFirst p f l, b ∈ l ∨ b = f a := by
  intro l
  induction l with
  | nil => intro h; cases h
  | cons c cs ih =>
    intro h b hb
    rw [List.find?_cons] at h
    unfold updateFirst at hb
    cases hpc : p c with
    | true =>
      rw [hpc] at h
      have hac : c = a := by cases h; rfl
      subst hac
      rw [if_pos hpc] at hb
      rcases List.mem_cons.mp hb with hb | hb
      · right; exact hb
      · left; exact List.mem_cons_of_mem _ hb
    | false =>
      rw [hpc] at h
      rw [if_neg (by simp [hpc])] at hb
      rcases List.mem_cons.mp hb with hb | hb
      · left; simp [hb]
      · rcases ih h b hb with hb' | hb'
        · left; exact List.mem_cons_of_mem _ hb'
        · right; exact hb'

theorem getElem?_updateFirst {p : α → Bool} {f : α → α} :
    ∀ (l : List α) (i : Nat),
      (updateFirst p f l)[i]? = l[i]?
        ∨ ∃ a, l.find? p = some a ∧ l[i]? = some a ∧ p a = true
            ∧ (updateFirst p f l)[i]? = some (f a) := by
  intro l
  induction l with
  | nil => intro i; left; rfl
  | cons b bs ih =>
    intro i
    unfold updateFirst
    cases hpb : p b with
    | true =>
      cases i with
      | zero =>
        right
        exact ⟨b, by simp [List.find?_cons, hpb], by simp, hpb, by simp⟩
      | succ j =>
        left
        simp
    | false =>
      cases i with
      | zero =>
        left
        simp [hpb]
      | succ j =>
        rcases ih j with h | ⟨a, hfind, hget, hpa, hupd⟩
        · left
          simpa [hpb] using h
        · right
          refine ⟨a, ?_, by simpa using hget, hpa, ?_⟩
          · rw [List.find?_cons, hpb]
            exact hfind
          · simpa [hpb] using hupd

theorem find?_updateFirst_self {p : α → Bool} {f : α → α} {a : α} :
    ∀ {l : List α}, l.find? p = some a → p (f a) = true →
      (updateFirst p f l).find? p = some (f a) := by
  intro l
  induction l with
  | nil => intro h; cases h
  | cons b bs ih =>
    intro h hpfa
    rw [List.find?_cons] at h
    unfold updateFirst
    cases hpb : p b with
    | true =>
      rw [hpb] at h
      have hab : b = a := by cases h; rfl
      subst hab
      simp [List.find?_cons, hpfa]
    | false =>
      rw [hpb] at h
      rw [if_neg (by simp [hpb])]
      rw [List.find?_cons, hpb]
      exact ih h hpfa

theorem updateFirst_decomp {p : α → Bool} {f : α → α} {a : α} :
    ∀ {l : List α}, l.find? p = some a →
      ∃ l₁ l₂, l = l₁ ++ a :: l₂ ∧ updateFirst p f l = l₁ ++ f a :: l₂
        ∧ ∀ x ∈ l₁, p x = false := by
  intro l
  induction l with
  | nil => intro h; cases h
  | cons b bs ih =>
    intro h
    rw [List.find?_cons] at h
    cases hpb : p b with
    | true =>
      rw [hpb] at h
      have hab : b = a := by cases h; rfl
      subst hab
      exact ⟨[], bs, rfl, by simp [updateFirst, hpb], by simp⟩
    | false =>
      rw [hpb] at h
      obtain ⟨l₁, l₂, hl, hu, hl₁⟩ := ih h
      refine ⟨b :: l₁, l₂, by simp [hl], ?_, ?_⟩
      · unfold updateFirst
        rw [if_neg (by simp [hpb])]
        simp [hu]
      · intro x hx
        rcases List.mem_cons.mp hx with hx | hx
        · subst hx; exact hpb
        · exact hl₁ x hx

theorem mem_updateFirst_nodup_cases {p : α → Bool} {f : α → α} {a : α}
    {l : List α} (g : α → β) (hfind : l.find? p = some a)
    (hnd : (l.map g).Nodup) :
    ∀ b ∈ updateFirst p f l, b = f a ∨ (b ∈ l ∧ g b ≠ g a) := by
  obtain ⟨l₁, l₂, hl, hu, -⟩ := updateFirst_decomp hfind
  subst hl
  rw [hu]
  intro b hb
  rw [List.map_append, List.map_cons] at hnd
  rcases List.mem_append.mp hb with hb | hb
  · right
    refine ⟨List.mem_append.mpr (Or.inl hb), ?_⟩
    intro hgb
    have : g a ∈ l₁.map g := hgb ▸ List.mem_map_of_mem g hb
    exact (List.disjoint_of_nodup_append hnd) this (List.mem_cons_self _ _)
  · rcases List.mem_cons.mp hb with hb | hb
    · left; exact hb
    · right
      refine ⟨List.mem_append.mpr (Or.inr (List.mem_cons_of_mem _ hb)), ?_⟩
      intro hgb
      have hnd2 : (g a :: l₂.map g).Nodup := (List.nodup_append.mp hnd).2.1
      have : g a ∈ l₂.map g := hgb ▸ List.mem_map_of_mem g hb
      exact (List.nodup_cons.mp hnd2).1 this

theorem wf_of_initOk {db : Db} (h : InitOk db) : WF db := by
  obtain ⟨ht, hr, hq⟩ := h
  refine ⟨hq, ?_, ?_, ?_, ?_, ?_, ?_, ?_, ?_⟩ <;> simp [ht, hr]

theorem wf_update {db db₂ : Db} {tid : Nat} {test : Test} {f : Test → Test}
    (d : Nat)
    (hwf : WF db) (hft : findTest db tid = some test)
    (hq2 : db₂.questions = db.questions)
    (ht2 : db₂.tests = updateFirst (fun t => t.id == tid) f db.tests)
    (hn2 : db₂.nextTestId = db.nextTestId)
    (hrt : db₂.responses.map (fun r => r.testId)
        = db.responses.map (fun r => r.testId))
    (hpair : db₂.responses.map (fun r => (r.testId, r.questionId))
        = db.responses.map (fun r => (r.testId, r.questionId)))
    (hrc : ∀ c, responseCount db₂ c = responseCount db c)
    (hacO : ∀ c, c ≠ tid → answeredCount db₂ c = answeredCount db c)
    (hacT : answeredCount db₂ tid = answeredCount db tid + d)
    (hid : ∀ t : Test, (t.id == tid) = true → (f t).id = t.id)
    (htq : (f test).totalQuestions = test.totalQuestions)
    (hqo : (f test).questionOrder = test.questionOrder)
    (hqa : (f test).questionsAnswered = test.questionsAnswered + d)
    (hidx : (f test).currentQuestionIndex < test.totalQuestions) :
    WF db₂ := by
  obtain ⟨hA, hB, hC, hD, hE, hF, hG, hH, hI⟩ := hwf
  have hft' : db.tests.find? (fun t => t.id == tid) = some test := hft
  have hmemt : test ∈ db.tests := List.mem_of_find?_eq_some hft'
  have hbt : (test.id == tid) = true :=
    @List.find?_some _ (fun t => t.id == tid) test db.tests hft'
  have htid : test.id = tid := by simpa using hbt
  have hcases : ∀ b ∈ db₂.tests, b ∈ db.tests ∨ b = f test := by
    rw [ht2]; exact mem_updateFirst_cases hft'
  have hcases' : ∀ b ∈ db₂.tests, b = f test ∨ (b ∈ db.tests ∧ b.id ≠ test.id) := by
    rw [ht2]; exact mem_updateFirst_nodup_cases (fun t => t.id) hft' hC
  have hidt : (f test).id = test.id := hid test hbt
  refine ⟨?_, ?_, ?_, ?_, ?_, ?_, ?_, ?_, ?_⟩
  · rw [hq2]; exact hA
  · intro t ht
    rw [hn2]
    rcases hcases t ht with h | h
    · exact hB t h
    · rw [h, hidt]; exact hB test hmemt
  · rw [ht2]
    have hmap : (updateFirst (fun t => t.id == tid) f db.tests).map (fun t => t.id)
        = db.tests.map (fun t => t.id) := map_updateFirst _ hid
    rw [hmap]
    exact hC
  · intro r hr
    rw [hn2]
    have : r.testId ∈ db₂.responses.map (fun r => r.testId) :=
      List.mem_map_of_mem _ hr
    rw [hrt] at this
    obtain ⟨r₀, hr₀, hr₀t⟩ := List.mem_map.mp this
    rw [← hr₀t]
    exact hD r₀ hr₀
  · intro t ht
    rw [hrc]
    rcases hcases t ht with h | h
    · exact hE t h
    · rw [h, hidt, htq]; exact hE test hmemt
  · intro t ht
    rcases hcases t ht with h | h
    · exact hF t h
    · rw [h, hqo, htq]; exact hF test hmemt
  · intro t ht
    rcases hcases t ht with h | h
    · exact hG t h
    · rw [h, htq]; exact hidx
  · intro t ht
    rcases hcases' t ht with h | h
    · rw [h, hqa, hidt, htid, hacT, hH test hmemt, htid]
    · rw [hacO t.id (by rw [← htid]; exact h.2)]
      exact hH t h.1
  · rw [hpair]; exact hI

theorem wf_navigateQuestion {db db' : Db} {tid : Nat} {dir : Direction}
    {now : Nat} {out : NavOut}
    (hwf : WF db) (h : navigateQuestion db tid dir now = .ok (db', out)) :
    WF db' := by
  unfold navigateQuestion at h
  split at h
  · cases h
  · rename_i test hft
    split at h
    · cases h
    · rename_i hst
      have hG := hwf.2.2.2.2.2.2.1
      have hft' : db.tests.find? (fun t => t.id == tid) = some test := hft
      have hmemt : test ∈ db.tests := List.mem_of_find?_eq_some hft'
      split at h
      · -- direction = next: split the current-response lookup
        split at h
        · -- some response: split the advance ite, then the guard ite
          split at h
          · rename_i hcond
            try simp only [] at h
            split at h
            · cases h
            · simp only [Except.ok.injEq, Prod.mk.injEq] at h
              obtain ⟨hdb, -⟩ := h
              subst hdb
              refine wf_update 0 hwf hft rfl rfl rfl rfl rfl (fun c => rfl) (fun c hc => rfl) rfl ?_ rfl rfl rfl ?_
              · intro t _; rfl
              · simp only
                omega
          · try simp only [] at h
            split at h
            · cases h
            · cases h
        · -- no response row: the guard fails
          simp at h
      · -- direction = previous
        split at h
        · rename_i hcond
          simp only [Except.ok.injEq, Prod.mk.injEq] at h
          obtain ⟨hdb, -⟩ := h
          subst hdb
          refine wf_update 0 hwf hft rfl rfl rfl rfl rfl (fun c => rfl) (fun c hc => rfl) rfl ?_ rfl rfl rfl ?_
          · intro t _; rfl
          · simp only
            have := hG test hmemt
            omega
        · cases h

theorem wf_completeAssessment {db db' : Db} {tid tts now : Nat} {out : CompleteOut}
    (hwf : WF db) (h : completeAssessment db tid tts now = .ok (db', out)) :
    WF db' := by
  unfold completeAssessment at h
  split at h
  · cases h
  · rename_i test hft
    split at h
    · cases h
    · rename_i hst
      try simp only [] at h
      split at h
      · cases h
      · rename_i user hfu
        simp only [Except.ok.injEq, Prod.mk.injEq] at h
        obtain ⟨hdb, -⟩ := h
        subst hdb
        have hft' : db.tests.find? (fun t => t.id == tid) = some test := hft
        have hbt : (test.id == tid) = true :=
          @List.find?_some _ (fun t => t.id == tid) test db.tests hft'
        refine wf_update 0 hwf hft rfl rfl rfl rfl rfl (fun c => rfl) (fun c hc => rfl) rfl ?_ rfl rfl rfl ?_
        · intro t hp
          have h1 : t.id = tid := by simpa using hp
          have h2 : test.id = tid := by simpa using hbt
          simp [h1, h2]
        · exact hwf.2.2.2.2.2.2.1 test (List.mem_of_find?_eq_some hft')

theorem map_updateFirst₂ (g : α → β) {p₁ p₂ : α → Bool} {f₁ f₂ : α → α}
    (h₁ : ∀ a, g (f₁ a) = g a) (h₂ : ∀ a, g (f₂ a) = g a) (l : List α) :
    (updateFirst p₂ f₂ (updateFirst p₁ f₁ l)).map g = l.map g := by
  rw [map_updateFirst g (fun a _ => h₂ a), map_updateFirst g (fun a _ => h₁ a)]

theorem countP_updateFirst₂ (q : α → Bool) {p₁ p₂ : α → Bool} {f₁ f₂ : α → α}
    (h₁ : ∀ a, q (f₁ a) = q a) (h₂ : ∀ a, q (f₂ a) = q a) (l : List α) :
    (updateFirst p₂ f₂ (updateFirst p₁ f₁ l)).countP q = l.countP q := by
  rw [countP_updateFirst_congr q (fun a _ => h₂ a), countP_updateFirst_congr q (fun a _ => h₁ a)]

theorem countP_updateFirst₂_succ (q : α → Bool) {p₁ p₂ : α → Bool} {f₁ f₂ : α → α}
    {l : List α} {a : α}
    (hfind : l.find? p₁ = some a) (hqa : q a = false) (hqf : q (f₁ a) = true)
    (h₂ : ∀ b, q (f₂ b) = q b) :
    (updateFirst p₂ f₂ (updateFirst p₁ f₁ l)).countP q = l.countP q + 1 := by
  rw [countP_updateFirst_congr q (fun b _ => h₂ b), countP_updateFirst_find? hfind hqa hqf]

theorem wf_skipQuestion {db db' : Db} {tid now : Nat} {out : SkipOut}
    (hwf : WF db) (h : skipQuestion db tid now = .ok (db', out)) :
    WF db' := by
  unfold skipQuestion at h
  split at h
  · cases h
  · rename_i test hft
    split at h
    · cases h
    · rename_i hst
      split at h
      · cases h
      · rename_i resp hfro
        split at h
        · cases h
        · rename_i hguard
          have hft' : db.tests.find? (fun t => t.id == tid) = some test := hft
          have hbt : (test.id == tid) = true :=
            @List.find?_some _ (fun t => t.id == tid) test db.tests hft'
          have htid : test.id = tid := by simpa using hbt
          have hG := hwf.2.2.2.2.2.2.1
          have hmemt : test ∈ db.tests := List.mem_of_find?_eq_some hft'
          have hidx0 : test.currentQuestionIndex < test.totalQuestions := hG test hmemt
          try simp only [] at h
          split at h
          · rename_i hcond
            simp only [Except.ok.injEq, Prod.mk.injEq] at h
            obtain ⟨hdb, -⟩ := h
            subst hdb
            refine wf_update 0 hwf hft rfl rfl rfl ?_ ?_ ?_ ?_ ?_ ?_ rfl rfl rfl ?_
            · show ((updateFirst _ _ (updateFirst _ _ db.responses)).map fun r => r.testId) = _
              exact map_updateFirst₂ _ (by intro a; rfl)
                (by intro a; split <;> rfl) _
            · show ((updateFirst _ _ (updateFirst _ _ db.responses)).map
                  fun r => (r.testId, r.questionId)) = _
              exact map_updateFirst₂ _ (by intro a; rfl)
                (by intro a; split <;> rfl) _
            · intro c
              show (updateFirst _ _ (updateFirst _ _ db.responses)).countP _ = _
              exact countP_updateFirst₂ _ (by intro a; rfl)
                (by intro a; split <;> rfl) _
            · intro c _
              show (updateFirst _ _ (updateFirst _ _ db.responses)).countP _ = _
              exact countP_updateFirst₂ _ (by intro a; rfl)
                (by intro a; split <;> rfl) _
            · show (updateFirst _ _ (updateFirst _ _ db.responses)).countP _ = _
              exact countP_updateFirst₂ _ (by intro a; rfl)
                (by intro a; split <;> rfl) _
            · intro t hp
              have h1 : t.id = tid := by simpa using hp
              simp [h1, htid]
            · simp only
              omega
          · simp only [Except.ok.injEq, Prod.mk.injEq] at h
            obtain ⟨hdb, -⟩ := h
            subst hdb
            refine wf_update 0 hwf hft rfl rfl rfl ?_ ?_ ?_ ?_ ?_ ?_ rfl rfl rfl ?_
            · show ((updateFirst _ _ db.responses).map fun r => r.testId) = _
              exact map_updateFirst _ (by intro a ha; rfl)
            · show ((updateFirst _ _ db.responses).map fun r => (r.testId, r.questionId)) = _
              exact map_updateFirst _ (by intro a ha; rfl)
            · intro c
              show (updateFirst _ _ db.responses).countP _ = _
              exact countP_updateFirst_congr _ (by intro a ha; rfl)
            · intro c _
              show (updateFirst _ _ db.responses).countP _ = _
              exact countP_updateFirst_congr _ (by intro a ha; rfl)
            · show (updateFirst _ _ db.responses).countP _ = _
              exact countP_updateFirst_congr _ (by intro a ha; rfl)
            · intro t hp
              have h1 : t.id = tid := by simpa using hp
              simp [h1, htid]
            · exact hidx0

theorem wf_submitAnswer {db db' : Db} {tid qid sel ts now : Nat} {out : SubmitOut}
    (hwf : WF db) (h : submitAnswer db tid qid sel ts now = .ok (db', out)) :
    WF db' := by
  unfold submitAnswer at h
  split at h
  · cases h
  · rename_i test hft
    split at h
    · cases h
    · rename_i hst
      split at h
      · cases h
      · rename_i question hfq
        split at h
        · cases h
        · rename_i resp hfr
          split at h
          · cases h
          · rename_i hsel
            have hselnone : resp.selectedOptionIndex = none := by
              simpa using hsel
            have hft' : db.tests.find? (fun t => t.id == tid) = some test := hft
            have hfr' : db.responses.find?
                (fun r => r.testId == tid && r.questionId == qid) = some resp := hfr
            have hbt : (test.id == tid) = true :=
              @List.find?_some _ (fun t => t.id == tid) test db.tests hft'
            have htid : test.id = tid := by simpa using hbt
            have hbr : (resp.testId == tid && resp.questionId == qid) = true :=
              @List.find?_some _ _ resp db.responses hfr'
            have hrtid : resp.testId = tid := by
              have := hbr
              simp only [Bool.and_eq_true, beq_iff_eq] at this
              exact this.1
            have hG := hwf.2.2.2.2.2.2.1
            have hmemt : test ∈ db.tests := List.mem_of_find?_eq_some hft'
            have hidx0 : test.currentQuestionIndex < test.totalQuestions := hG test hmemt
            try simp only [] at h
            split at h
            · rename_i hcond
              simp only [Except.ok.injEq, Prod.mk.injEq] at h
              obtain ⟨hdb, -⟩ := h
              subst hdb
              refine wf_update 1 hwf hft rfl rfl rfl ?_ ?_ ?_ ?_ ?_ ?_ rfl rfl rfl ?_
              · show ((updateFirst _ _ (updateFirst _ _ db.responses)).map
                    fun r => r.testId) = _
                exact map_updateFirst₂ _ (by intro a; rfl) (by intro a; split <;> rfl) _
              · show ((updateFirst _ _ (updateFirst _ _ db.responses)).map
                    fun r => (r.testId, r.questionId)) = _
                exact map_updateFirst₂ _ (by intro a; rfl) (by intro a; split <;> rfl) _
              · intro c
                show (updateFirst _ _ (updateFirst _ _ db.responses)).countP _ = _
                exact countP_updateFirst₂ _ (by intro a; rfl) (by intro a; split <;> rfl) _
              · intro c hc
                show (updateFirst _ _ (updateFirst _ _ db.responses)).countP _ = _
                refine Eq.trans (countP_updateFirst_congr _ ?_) (countP_updateFirst_congr _ ?_)
                · intro b _
                  split <;> rfl
                · intro b hb
                  simp only [Bool.and_eq_true, beq_iff_eq] at hb
                  have hbc : (b.testId == c) = false := by
                    simp [hb.1]
                    exact fun hcc => hc hcc.symm
                  show (b.testId == c && (some sel).isSome) = (b.testId == c && b.selectedOptionIndex.isSome)
                  rw [hbc]
                  simp
              · show (updateFirst _ _ (updateFirst _ _ db.responses)).countP _ = _
                refine countP_updateFirst₂_succ _ hfr' ?_ ?_ (by intro b; split <;> rfl)
                · simp [hselnone]
                · show (resp.testId == tid && (some sel).isSome) = true
                  simp [hrtid]
              · intro t hp
                have h1 : t.id = tid := by simpa using hp
                simp [h1, htid]
              · show test.currentQuestionIndex + 1 < test.totalQuestions
                omega
            · simp only [Except.ok.injEq, Prod.mk.injEq] at h
              obtain ⟨hdb, -⟩ := h
              subst hdb
              refine wf_update 1 hwf hft rfl rfl rfl ?_ ?_ ?_ ?_ ?_ ?_ rfl rfl rfl ?_
              · show ((updateFirst _ _ db.responses).map fun r => r.testId) = _
                exact map_updateFirst _ (by intro a ha; rfl)
              · show ((updateFirst _ _ db.responses).map
                    fun r => (r.testId, r.questionId)) = _
                exact map_updateFirst _ (by intro a ha; rfl)
              · intro c
                show (updateFirst _ _ db.responses).countP _ = _
                exact countP_updateFirst_congr _ (by intro a ha; rfl)
              · intro c hc
                show (updateFirst _ _ db.responses).countP _ = _
                refine countP_updateFirst_congr _ ?_
                intro b hb
                simp only [Bool.and_eq_true, beq_iff_eq] at hb
                have hbc : (b.testId == c) = false := by
                  simp [hb.1]
                  exact fun hcc => hc hcc.symm
                show (b.testId == c && (some sel).isSome) = (b.testId == c && b.selectedOptionIndex.isSome)
                rw [hbc]
                simp
              · show (updateFirst _ _ db.responses).countP _ = _
                refine countP_updateFirst_find? hfr' ?_ ?_
                · simp [hselnone]
                · show (resp.testId == tid && (some sel).isSome) = true
                  simp [hrtid]
              · intro t hp
                have h1 : t.id = tid := by simpa using hp
                simp [h1, htid]
              · exact hidx0

theorem wf_append {db : Db} (hwf : WF db) {nt : Test} {nrs : List TestResponse}
    (hid : nt.id = db.nextTestId)
    (hlen : nrs.length = nt.totalQuestions)
    (hall : ∀ r ∈ nrs, r.testId = db.nextTestId ∧ r.selectedOptionIndex = none)
    (hpairs : (nrs.map (fun r => (r.testId, r.questionId))).Nodup)
    (hqo : nt.questionOrder.length = nt.totalQuestions)
    (hpos : 0 < nt.totalQuestions)
    (hidx : nt.currentQuestionIndex < nt.totalQuestions)
    (hqa : nt.questionsAnswered = 0) :
    WF { db with tests := db.tests ++ [nt],
                 responses := db.responses ++ nrs,
                 nextTestId := db.nextTestId + 1 } := by
  obtain ⟨hA, hB, hC, hD, hE, hF, hG, hH, hI⟩ := hwf
  refine ⟨?_, ?_, ?_, ?_, ?_, ?_, ?_, ?_, ?_⟩
  · exact hA
  · intro t ht
    rcases List.mem_append.mp ht with h | h
    · exact Nat.lt_succ_of_lt (hB t h)
    · rw [List.mem_singleton] at h
      subst h
      rw [hid]
      exact Nat.lt_succ_self _
  · show ((db.tests ++ [nt]).map fun t => t.id).Nodup
    rw [List.map_append, List.nodup_append]
    refine ⟨hC, by simp, ?_⟩
    intro a ha hb
    simp only [List.map_cons, List.map_nil, List.mem_singleton] at hb
    obtain ⟨t, ht, rfl⟩ := List.mem_map.mp ha
    have h1 := hB t ht
    rw [hb, hid] at h1
    exact absurd h1 (lt_irrefl _)
  · intro r hr
    rcases List.mem_append.mp hr with h | h
    · exact Nat.lt_succ_of_lt (hD r h)
    · rw [(hall r h).1]
      exact Nat.lt_succ_self _
  · intro t ht
    show (db.responses ++ nrs).countP (fun r => r.testId == t.id) = t.totalQuestions
    rw [List.countP_append]
    rcases List.mem_append.mp ht with h | h
    · have hz : nrs.countP (fun r => r.testId == t.id) = 0 := by
        refine List.countP_eq_zero.mpr ?_
        intro r hr
        have h1 := (hall r hr).1
        have h2 := hB t h
        simp only [beq_iff_eq, h1]
        omega
      rw [hz, Nat.add_zero]
      exact hE t h
    · rw [List.mem_singleton] at h
      subst h
      have h1 : db.responses.countP (fun r => r.testId == t.id) = 0 := by
        refine List.countP_eq_zero.mpr ?_
        intro r hr
        have h2 := hD r hr
        simp only [beq_iff_eq, hid]
        omega
      have h2 : nrs.countP (fun r => r.testId == t.id) = nrs.length := by
        refine List.countP_eq_length.mpr ?_
        intro r hr
        simp only [beq_iff_eq, (hall r hr).1, hid]
      rw [h1, h2, hlen, Nat.zero_add]
  · intro t ht
    rcases List.mem_append.mp ht with h | h
    · exact hF t h
    · rw [List.mem_singleton] at h
      subst h
      exact ⟨hqo, hpos⟩
  · intro t ht
    rcases List.mem_append.mp ht with h | h
    · exact hG t h
    · rw [List.mem_singleton] at h
      subst h
      exact hidx
  · intro t ht
    show t.questionsAnswered
        = (db.responses ++ nrs).countP (fun r => r.testId == t.id && r.selectedOptionIndex.isSome)
    rw [List.countP_append]
    rcases List.mem_append.mp ht with h | h
    · have hz : nrs.countP (fun r => r.testId == t.id && r.selectedOptionIndex.isSome) = 0 := by
        refine List.countP_eq_zero.mpr ?_
        intro r hr
        have h1 := (hall r hr).1
        have h2 := hB t h
        simp only [Bool.and_eq_true, beq_iff_eq, h1, not_and]
        intro hcc
        omega
      rw [hz, Nat.add_zero]
      exact hH t h
    · rw [List.mem_singleton] at h
      subst h
      have h1 : db.responses.countP
          (fun r => r.testId == t.id && r.selectedOptionIndex.isSome) = 0 := by
        refine List.countP_eq_zero.mpr ?_
        intro r hr
        have h2 := hD r hr
        simp only [Bool.and_eq_true, beq_iff_eq, hid, not_and]
        intro hcc
        omega
      have h2 : nrs.countP (fun r => r.testId == t.id && r.selectedOptionIndex.isSome) = 0 := by
        refine List.countP_eq_zero.mpr ?_
        intro r hr
        simp [(hall r hr).2]
      rw [h1, h2, hqa]
  · show ((db.responses ++ nrs).map fun r => (r.testId, r.questionId)).Nodup
    rw [List.map_append, List.nodup_append]
    refine ⟨hI, hpairs, ?_⟩
    intro a ha hb
    obtain ⟨r, hr, rfl⟩ := List.mem_map.mp ha
    obtain ⟨r', hr', heq⟩ := List.mem_map.mp hb
    have h1 := hD r hr
    have h2 := (hall r' hr').1
    have h3 : r'.testId = r.testId := congrArg Prod.fst heq
    omega

theorem nodup_response_pairs (n : Nat) (Q : List Question)
    (hndQ : (Q.map (fun q => q.id)).Nodup) (now : Nat) :
    ((Q.enum.map (fun iq =>
      { testId := n
        questionId := iq.2.id
        questionOrder := iq.1
        selectedOptionIndex := none
        isCorrect := none
        timeSpent := none
        questionStartTime := if iq.1 = 0 then some now else none
        answeredAt := none
        isSkipped := false : TestResponse })).map
          (fun r => (r.testId, r.questionId))).Nodup := by
  rw [List.map_map]
  show (Q.enum.map ((fun q : Question => (n, q.id)) ∘ Prod.snd)).Nodup
  rw [← List.map_map, List.enum_map_snd]
  show (Q.map ((fun i => (n, i)) ∘ (fun q : Question => q.id))).Nodup
  rw [← List.map_map]
  exact List.Nodup.map (fun x y hxy => by simpa using hxy) hndQ

theorem wf_startAssessment {db db' : Db} {uid stp now : Nat} {out : StartOut}
    (hwf : WF db) (h : startAssessment db uid stp now = .ok (db', out)) :
    WF db' := by
  unfold startAssessment at h
  split at h
  · cases h
  · split at h
    · -- an in-progress session exists: the store is returned unchanged
      simp only [Except.ok.injEq, Prod.mk.injEq] at h
      obtain ⟨hdb, -⟩ := h
      subst hdb
      exact hwf
    · rename_i hnoactive
      try simp only [] at h
      split at h
      · cases h
      · rename_i hlen
        simp only [Except.ok.injEq, Prod.mk.injEq] at h
        obtain ⟨hdb, -⟩ := h
        subst hdb
        have hperm := List.perm_insertionSort questionSortRel
          (db.questions.filter (fun q => (getStepLevels stp).contains q.level && q.isActive))
        have h1 : ((db.questions.filter
            (fun q => (getStepLevels stp).contains q.level && q.isActive)).map
              (fun q => q.id)).Nodup :=
          List.Nodup.sublist (List.Sublist.map _ (List.filter_sublist _)) hwf.1
        have hndQ : ((List.insertionSort questionSortRel
            (db.questions.filter
              (fun q => (getStepLevels stp).contains q.level && q.isActive))).map
                (fun q => q.id)).Nodup :=
          ((hperm.map _).nodup_iff).mpr h1
        refine wf_append hwf rfl ?_ ?_ ?_ ?_ ?_ ?_ rfl
        · simp [List.enum_length]
        · intro r hr
          obtain ⟨iq, -, rfl⟩ := List.mem_map.mp hr
          exact ⟨rfl, rfl⟩
        · exact nodup_response_pairs _ _ hndQ _
        · simp
        · exact Nat.pos_of_ne_zero hlen
        · exact Nat.pos_of_ne_zero hlen

theorem wf_stepDb {db : Db} (hwf : WF db) (op : Op) : WF (stepDb db op) := by
  cases op with
  | start userId step now =>
    simp only [stepDb]
    split
    · rename_i db' o heq
      exact wf_startAssessment hwf heq
    · exact hwf
  | submit testId questionId sel ts now =>
    simp only [stepDb]
    split
    · rename_i db' o heq
      exact wf_submitAnswer hwf heq
    · exact hwf
  | skip testId now =>
    simp only [stepDb]
    split
    · rename_i db' o heq
      exact wf_skipQuestion hwf heq
    · exact hwf
  | navigate testId direction now =>
    simp only [stepDb]
    split
    · rename_i db' o heq
      exact wf_navigateQuestion hwf heq
    · exact hwf
  | complete testId tts now =>
    simp only [stepDb]
    split
    · rename_i db' o heq
      exact wf_completeAssessment hwf heq
    · exact hwf

theorem reachable_wf {init db : Db} (hinit : InitOk init)
    (h : Reachable init db) : WF db := by
  induction h with
  | refl => exact wf_of_initOk hinit
  | step op h ih => exact wf_stepDb ih op

/-- C1: for every step in {1,2,3} and integer score in [0,100],
`calculateProgression` returns exactly the outcomes of the spec's threshold
table, including the four point examples, that step 3 never sets
canProceedToNextStep, and that blocksRetake holds only for step 1 with
score < 25. -/
theorem c1_calculateProgression_matches_spec_table :
    (∀ step : Fin 3, ∀ score : Fin 101,
        calculateProgression (step.val + 1) score.val
          = progressionTableSpec (step.val + 1) score.val)
    ∧ calculateProgression 1 20
        = { levelAchieved := none, canProceedToNextStep := false, blocksRetake := true }
    ∧ calculateProgression 1 80
        = { levelAchieved := some .A2, canProceedToNextStep := true, blocksRetake := false }
    ∧ calculateProgression 2 10
        = { levelAchieved := some .A2, canProceedToNextStep := false, blocksRetake := false }
    ∧ calculateProgression 3 60
        = { levelAchieved := some .C2, canProceedToNextStep := false, blocksRetake := false }
    ∧ (∀ score : Fin 101, (calculateProgression 3 score.val).canProceedToNextStep = false)
    ∧ (∀ step : Fin 3, ∀ score : Fin 101,
        (calculateProgression (step.val + 1) score.val).blocksRetake = true
          ↔ (step.val + 1 = 1 ∧ score.val < 25)) := by
  refine ⟨?_, ?_, ?_, ?_, ?_, ?_, ?_⟩ <;> decide

/-- C8: for every in-progress session and every question whose response is
already answered, submitAnswer fails with the InvalidState error (HTTP 400,
message "Question already answered") and changes nothing: the store after the
operation is the original store, so the recorded answer, questionsAnswered and
currentQuestionIndex all keep their prior values. -/
theorem c8_submitAnswer_already_answered_error :
    ∀ (db : Db) (tid qid sel ts now : Nat) (t : Test) (q : Question)
      (resp : TestResponse) (v : Nat),
      findTest db tid = some t → t.status = .in_progress →
      findQuestion db qid = some q →
      findResponse db tid qid = some resp →
      resp.selectedOptionIndex = some v →
      submitAnswer db tid qid sel ts now
          = .error ⟨httpStatus.BAD_REQUEST, "Question already answered"⟩
        ∧ stepDb db (.submit tid qid sel ts now) = db := by
  intro db tid qid sel ts now t q resp v hft hst hfq hfr hsel
  have hmain : submitAnswer db tid qid sel ts now
      = .error ⟨httpStatus.BAD_REQUEST, "Question already answered"⟩ := by
    simp only [submitAnswer, hft, hst, hfq, hfr, hsel]
    simp
  refine ⟨hmain, ?_⟩
  simp only [stepDb, hmain]

/-- Witness for C8: in the concrete store where question 10 is already
answered, submitting it again yields exactly the 400 error and leaves the
store unchanged. -/
theorem c8_witness :
    submitAnswer dbAnswered 100 10 2 3 9
        = .error ⟨httpStatus.BAD_REQUEST, "Question already answered"⟩
      ∧ stepDb dbAnswered (.submit 100 10 2 3 9) = dbAnswered :=
  c8_submitAnswer_already_answered_error dbAnswered 100 10 2 3 9 _ _ _ 0
    rfl rfl rfl rfl rfl

/-- C9 counterexample: with an empty question pool the code fails with
Conflict (HTTP 409), not NotFound (404) as the claim states. -/
theorem c9_counterexample :
    startAssessment dbNoQ 1 1 0
        = .error ⟨httpStatus.CONFLICT, "No questions available for Step 1"⟩
      ∧ httpStatus.CONFLICT = 409 ∧ httpStatus.NOT_FOUND = 404
      ∧ httpStatus.CONFLICT ≠ httpStatus.NOT_FOUND := by
  refine ⟨rfl, rfl, rfl, by decide⟩

/-- C9 (amended): when no active questions exist for the requested step's two
levels, startAssessment fails with the Conflict error (HTTP 409), creating no
session and no response rows. -/
theorem c9_empty_pool_conflict :
    ∀ (db : Db) (uid stp now : Nat),
      checkUserEligibility db uid stp = .ok () →
      db.tests.find? (fun t => t.userId == uid && t.step == stp
          && t.status == .in_progress) = none →
      db.questions.filter (fun q => (getStepLevels stp).contains q.level
          && q.isActive) = [] →
      startAssessment db uid stp now
          = .error ⟨httpStatus.CONFLICT, s!"No questions available for Step {stp}"⟩
        ∧ stepDb db (.start uid stp now) = db := by
  intro db uid stp now helig hactive hfilter
  have hmain : startAssessment db uid stp now
      = .error ⟨httpStatus.CONFLICT, s!"No questions available for Step {stp}"⟩ := by
    simp only [startAssessment, helig, hactive, hfilter]
    simp
  refine ⟨hmain, ?_⟩
  simp only [stepDb, hmain]

/-- Witness for C9 (amended) at the concrete empty-bank store. -/
theorem c9_witness :
    startAssessment dbNoQ 1 1 5
        = .error ⟨httpStatus.CONFLICT, "No questions available for Step 1"⟩
      ∧ stepDb dbNoQ (.start 1 1 5) = dbNoQ :=
  c9_empty_pool_conflict dbNoQ 1 1 5 rfl rfl rfl

/-- C10: submitAnswer does not require the submitted question to be the
session's current question: for every in-progress session, it succeeds for any
question of the session whose response is not yet answered, increments
questionsAnswered by one, and advances currentQuestionIndex by one exactly
when currentQuestionIndex < N-1 — with no hypothesis relating the question to
currentQuestionId. -/
theorem c10_submitAnswer_any_unanswered_question :
    ∀ (db : Db) (tid qid sel ts now : Nat) (t : Test) (q : Question)
      (resp : TestResponse),
      findTest db tid = some t → t.status = .in_progress →
      findQuestion db qid = some q →
      findResponse db tid qid = some resp →
      resp.selectedOptionIndex = none →
      ∃ db' out, submitAnswer db tid qid sel ts now = .ok (db', out)
        ∧ ∃ t', findTest db' tid = some t'
            ∧ t'.questionsAnswered = t.questionsAnswered + 1
            ∧ (t.currentQuestionIndex < t.totalQuestions - 1 →
                t'.currentQuestionIndex = t.currentQuestionIndex + 1)
            ∧ (¬ t.currentQuestionIndex < t.totalQuestions - 1 →
                t'.currentQuestionIndex = t.currentQuestionIndex) := by
  intro db tid qid sel ts now t q resp hft hst hfq hfr hsel
  have hft' : db.tests.find? (fun x => x.id == tid) = some t := hft
  have hbt : (t.id == tid) = true :=
    @List.find?_some _ (fun x => x.id == tid) t db.tests hft'
  have hok : ∃ p, submitAnswer db tid qid sel ts now = .ok p := by
    simp only [submitAnswer, hft, hst, hfq, hfr, hsel]
    simp only [ne_eq, not_true_eq_false, reduceCtorEq, if_false]
    split <;> exact ⟨_, rfl⟩
  obtain ⟨⟨db1, out1⟩, hok⟩ := hok
  refine ⟨db1, out1, hok, ?_⟩
  simp only [submitAnswer, hft, hst, hfq, hfr, hsel] at hok
  simp only [ne_eq, not_true_eq_false, reduceCtorEq, if_false] at hok
  split at hok
  · rename_i hadv
    simp only [Except.ok.injEq, Prod.mk.injEq] at hok
    obtain ⟨hdb, -⟩ := hok
    subst hdb
    exact ⟨_, find?_updateFirst_self hft' hbt, rfl, fun _ => rfl,
      fun hc => absurd hadv hc⟩
  · rename_i hadv
    simp only [Except.ok.injEq, Prod.mk.injEq] at hok
    obtain ⟨hdb, -⟩ := hok
    subst hdb
    exact ⟨_, find?_updateFirst_self hft' hbt, rfl, fun hc => absurd hc hadv,
      fun _ => rfl⟩

/-- Witness for C10: in the concrete just-started store the current question
is question 10, yet submitting question 11 succeeds, increments
questionsAnswered and advances the index. -/
theorem c10_witness :
    (∃ db' out, submitAnswer dbStarted 100 11 1 4 3 = .ok (db', out)
      ∧ ∃ t', findTest db' 100 = some t'
          ∧ t'.questionsAnswered = 0 + 1
          ∧ (0 < 2 - 1 → t'.currentQuestionIndex = 0 + 1)
          ∧ (¬ 0 < 2 - 1 → t'.currentQuestionIndex = 0))
    ∧ (findTest dbStarted 100).map (fun t => t.currentQuestionId) = some 10 := by
  constructor
  · exact c10_submitAnswer_any_unanswered_question dbStarted 100 11 1 4 3 _ _ _
      rfl rfl rfl rfl rfl
  · rfl

theorem reach_dbStarted : Reachable db0 dbStarted :=
  .step (.start 1 1 0) .refl

theorem reach_dbSkipped : Reachable db0 dbSkipped :=
  .step (.skip 100 1) reach_dbStarted

theorem reach_dbAnswered : Reachable db0 dbAnswered :=
  .step (.submit 100 10 0 5 1) reach_dbStarted

theorem reach_dbBoth : Reachable db0 dbBoth :=
  .step (.submit 100 11 0 5 2) reach_dbAnswered

theorem reach_dbBothB : Reachable db0 dbBothB :=
  .step (.submit 100 11 0 5 2) (.step (.submit 100 10 0 5 1) (.step (.start 2 1 0) .refl))

/-- C4 counterexample: skipQuestion succeeds on the concrete just-started
session yet leaves questionsAnswered at 0 while one response of the session
is resolved — refuting both the claimed equality with the resolved count and
the claim that every successful skipQuestion increments questionsAnswered. -/
theorem c4_skip_does_not_increment_counterexample :
    skipQuestion dbStarted 100 1
        = .ok (dbSkipped,
            { currentQuestionIndex := 1, isLastQuestion := true, autoAdvanced := true })
      ∧ (findTest dbSkipped 100).map (fun t => t.questionsAnswered) = some 0
      ∧ (dbSkipped.responses.filter (fun r => r.testId == 100
            && (r.selectedOptionIndex.isSome || r.isSkipped))).length = 1 :=
  ⟨rfl, rfl, rfl⟩

/-- C4 (amended): questionsAnswered counts the session's answered responses
only — every successful submitAnswer increments it by one, while a successful
skipQuestion leaves it unchanged (skips do not count toward
questionsAnswered). -/
theorem c4_questionsAnswered_counts_answered :
    (∀ init db : Db, InitOk init → Reachable init db →
      ∀ t ∈ db.tests, t.questionsAnswered
        = (db.responses.filter (fun r => r.testId == t.id
            && r.selectedOptionIndex.isSome)).length)
    ∧ (∀ db db' : Db, ∀ tid qid sel ts now : Nat, ∀ out : SubmitOut, ∀ t : Test,
        submitAnswer db tid qid sel ts now = .ok (db', out) →
        findTest db tid = some t →
        ∃ t', findTest db' tid = some t'
          ∧ t'.questionsAnswered = t.questionsAnswered + 1)
    ∧ (∀ db db' : Db, ∀ tid now : Nat, ∀ out : SkipOut, ∀ t : Test,
        skipQuestion db tid now = .ok (db', out) →
        findTest db tid = some t →
        ∃ t', findTest db' tid = some t'
          ∧ t'.questionsAnswered = t.questionsAnswered) := by
  refine ⟨?_, ?_, ?_⟩
  · intro init db hinit hreach t ht
    have h := (reachable_wf hinit hreach).2.2.2.2.2.2.2.1 t ht
    rw [h]
    unfold answeredCount
    rw [List.countP_eq_length_filter]
  · intro db db' tid qid sel ts now out t h hft
    have hft' : db.tests.find? (fun x => x.id == tid) = some t := hft
    have hbt : (t.id == tid) = true :=
      @List.find?_some _ (fun x => x.id == tid) t db.tests hft'
    unfold submitAnswer at h
    rw [hft] at h
    try simp only [] at h
    split at h
    · cases h
    · split at h
      · cases h
      · split at h
        · cases h
        · rename_i resp hfr
          split at h
          · cases h
          · try simp only [] at h
            split at h
            · simp only [Except.ok.injEq, Prod.mk.injEq] at h
              obtain ⟨hdb, -⟩ := h
              subst hdb
              exact ⟨_, find?_updateFirst_self hft' hbt, rfl⟩
            · simp only [Except.ok.injEq, Prod.mk.injEq] at h
              obtain ⟨hdb, -⟩ := h
              subst hdb
              exact ⟨_, find?_updateFirst_self hft' hbt, rfl⟩
  · intro db db' tid now out t h hft
    have hft' : db.tests.find? (fun x => x.id == tid) = some t := hft
    have hbt : (t.id == tid) = true :=
      @List.find?_some _ (fun x => x.id == tid) t db.tests hft'
    unfold skipQuestion at h
    rw [hft] at h
    try simp only [] at h
    split at h
    · cases h
    · split at h
      · cases h
      · split at h
        · cases h
        · try simp only [] at h
          split at h
          · simp only [Except.ok.injEq, Prod.mk.injEq] at h
            obtain ⟨hdb, -⟩ := h
            subst hdb
            exact ⟨_, find?_updateFirst_self hft' hbt, rfl⟩
          · simp only [Except.ok.injEq, Prod.mk.injEq] at h
            obtain ⟨hdb, -⟩ := h
            subst hdb
            exact ⟨_, find?_updateFirst_self hft' hbt, rfl⟩

/-- Witness for C4 (amended) on the concrete stores: the skipped session
still counts 0 answered, a submit increments by one, and a skip leaves the
counter unchanged. -/
theorem c4_witness :
    (testSkipped.questionsAnswered
        = (dbSkipped.responses.filter (fun r => r.testId == testSkipped.id
            && r.selectedOptionIndex.isSome)).length)
    ∧ (∃ t', findTest dbAnswered 100 = some t'
        ∧ t'.questionsAnswered = testStarted.questionsAnswered + 1)
    ∧ (∃ t', findTest dbSkipped 100 = some t'
        ∧ t'.questionsAnswered = testStarted.questionsAnswered) :=
  ⟨c4_questionsAnswered_counts_answered.1 db0 dbSkipped (by decide) reach_dbSkipped
      testSkipped (by decide),
   c4_questionsAnswered_counts_answered.2.1 dbStarted dbAnswered 100 10 0 5 1 _
      testStarted rfl rfl,
   c4_questionsAnswered_counts_answered.2.2 dbStarted dbSkipped 100 1 _
      testStarted rfl rfl⟩

/-- C5 counterexample: on the concrete session at index 1, navigateQuestion
with direction previous succeeds and moves currentQuestionIndex back to 0 —
the index is not monotonic non-decreasing. -/
theorem c5_navigate_previous_decreases_counterexample :
    (findTest dbAnswered 100).map (fun t => t.currentQuestionIndex) = some 1
    ∧ navigateQuestion dbAnswered 100 .previous 2
        = .ok (dbPrev, { currentQuestionIndex := 0, direction := .previous })
    ∧ (findTest dbPrev 100).map (fun t => t.currentQuestionIndex) = some 0 :=
  ⟨rfl, rfl, rfl⟩

/-- C5 (amended): currentQuestionIndex always stays within [0, N-1]; the
forward operations (submitAnswer, skipQuestion, navigateQuestion next) never
decrease it, and only navigateQuestion previous decreases it — by exactly
one. -/
theorem c5_index_bounded_and_forward_ops_nondecreasing :
    (∀ init db : Db, InitOk init → Reachable init db →
      ∀ t ∈ db.tests, t.currentQuestionIndex < t.totalQuestions)
    ∧ (∀ db db' : Db, ∀ tid qid sel ts now : Nat, ∀ out : SubmitOut, ∀ t : Test,
        submitAnswer db tid qid sel ts now = .ok (db', out) →
        findTest db tid = some t →
        ∃ t', findTest db' tid = some t'
          ∧ t.currentQuestionIndex ≤ t'.currentQuestionIndex)
    ∧ (∀ db db' : Db, ∀ tid now : Nat, ∀ out : SkipOut, ∀ t : Test,
        skipQuestion db tid now = .ok (db', out) →
        findTest db tid = some t →
        ∃ t', findTest db' tid = some t'
          ∧ t.currentQuestionIndex ≤ t'.currentQuestionIndex)
    ∧ (∀ db db' : Db, ∀ tid now : Nat, ∀ out : NavOut, ∀ t : Test,
        navigateQuestion db tid .next now = .ok (db', out) →
        findTest db tid = some t →
        ∃ t', findTest db' tid = some t'
          ∧ t.currentQuestionIndex ≤ t'.currentQuestionIndex)
    ∧ (∀ db db' : Db, ∀ tid now : Nat, ∀ out : NavOut, ∀ t : Test,
        navigateQuestion db tid .previous now = .ok (db', out) →
        findTest db tid = some t →
        ∃ t', findTest db' tid = some t'
          ∧ t'.currentQuestionIndex = t.currentQuestionIndex - 1) := by
  refine ⟨?_, ?_, ?_, ?_, ?_⟩
  · intro init db hinit hreach t ht
    exact (reachable_wf hinit hreach).2.2.2.2.2.2.1 t ht
  · intro db db' tid qid sel ts now out t h hft
    have hft' : db.tests.find? (fun x => x.id == tid) = some t := hft
    have hbt : (t.id == tid) = true :=
      @List.find?_some _ (fun x => x.id == tid) t db.tests hft'
    unfold submitAnswer at h
    rw [hft] at h
    try simp only [] at h
    split at h
    · cases h
    · split at h
      · cases h
      · split at h
        · cases h
        · split at h
          · cases h
          · try simp only [] at h
            split at h
            · simp only [Except.ok.injEq, Prod.mk.injEq] at h
              obtain ⟨hdb, -⟩ := h
              subst hdb
              exact ⟨_, find?_updateFirst_self hft' hbt, Nat.le_succ _⟩
            · simp only [Except.ok.injEq, Prod.mk.injEq] at h
              obtain ⟨hdb, -⟩ := h
              subst hdb
              exact ⟨_, find?_updateFirst_self hft' hbt, Nat.le_refl _⟩
  · intro db db' tid now out t h hft
    have hft' : db.tests.find? (fun x => x.id == tid) = some t := hft
    have hbt : (t.id == tid) = true :=
      @List.find?_some _ (fun x => x.id == tid) t db.tests hft'
    unfold skipQuestion at h
    rw [hft] at h
    try simp only [] at h
    split at h
    · cases h
    · split at h
      · cases h
      · split at h
        · cases h
        · try simp only [] at h
          split at h
          · simp only [Except.ok.injEq, Prod.mk.injEq] at h
            obtain ⟨hdb, -⟩ := h
            subst hdb
            exact ⟨_, find?_updateFirst_self hft' hbt, Nat.le_succ _⟩
          · simp only [Except.ok.injEq, Prod.mk.injEq] at h
            obtain ⟨hdb, -⟩ := h
            subst hdb
            exact ⟨_, find?_updateFirst_self hft' hbt, Nat.le_refl _⟩
  · intro db db' tid now out t h hft
    have hft' : db.tests.find? (fun x => x.id == tid) = some t := hft
    have hbt : (t.id == tid) = true :=
      @List.find?_some _ (fun x => x.id == tid) t db.tests hft'
    unfold navigateQuestion at h
    rw [hft] at h
    try simp only [] at h
    split at h
    · cases h
    · split at h
      · cases h
      · split at h
        · simp only [Except.ok.injEq, Prod.mk.injEq] at h
          obtain ⟨hdb, -⟩ := h
          subst hdb
          exact ⟨_, find?_updateFirst_self hft' hbt, Nat.le_succ _⟩
        · cases h
  · intro db db' tid now out t h hft
    have hft' : db.tests.find? (fun x => x.id == tid) = some t := hft
    have hbt : (t.id == tid) = true :=
      @List.find?_some _ (fun x => x.id == tid) t db.tests hft'
    unfold navigateQuestion at h
    rw [hft] at h
    try simp only [] at h
    split at h
    · cases h
    · split at h
      · simp only [Except.ok.injEq, Prod.mk.injEq] at h
        obtain ⟨hdb, -⟩ := h
        subst hdb
        exact ⟨_, find?_updateFirst_self hft' hbt, rfl⟩
      · cases h

/-- Witness for C5 (amended) on the concrete stores: the skipped session's
index is in range, submit, skip and navigate-next never decreased the index,
and navigate-previous decreased it by exactly one. -/
theorem c5_witness :
    testSkipped.currentQuestionIndex < testSkipped.totalQuestions
    ∧ (∃ t', findTest dbAnswered 100 = some t'
        ∧ testStarted.currentQuestionIndex ≤ t'.currentQuestionIndex)
    ∧ (∃ t', findTest dbSkipped 100 = some t'
        ∧ testStarted.currentQuestionIndex ≤ t'.currentQuestionIndex)
    ∧ (∃ t', findTest dbNexted 100 = some t'
        ∧ testPrev.currentQuestionIndex ≤ t'.currentQuestionIndex)
    ∧ (∃ t', findTest dbPrev 100 = some t'
        ∧ t'.currentQuestionIndex = testAnswered.currentQuestionIndex - 1) :=
  ⟨c5_index_bounded_and_forward_ops_nondecreasing.1 db0 dbSkipped (by decide)
      reach_dbSkipped testSkipped (by decide),
   c5_index_bounded_and_forward_ops_nondecreasing.2.1 dbStarted dbAnswered
      100 10 0 5 1 _ testStarted rfl rfl,
   c5_index_bounded_and_forward_ops_nondecreasing.2.2.1 dbStarted dbSkipped
      100 1 _ testStarted rfl rfl,
   c5_index_bounded_and_forward_ops_nondecreasing.2.2.2.1 dbPrev dbNexted
      100 3 _ testPrev rfl rfl,
   c5_index_bounded_and_forward_ops_nondecreasing.2.2.2.2 dbAnswered dbPrev
      100 2 _ testAnswered rfl rfl⟩

theorem respStep_refl (r : TestResponse) : respStep r r :=
  ⟨rfl, rfl, .inl ⟨rfl, rfl⟩⟩

theorem respStep_stamp {r b : TestResponse} (now : Nat) (h : respStep r b) :
    respStep r
      (if b.questionStartTime = none then { b with questionStartTime := some now } else b) := by
  split
  · exact h
  · exact h

theorem getElem?_one_update {p₁ : α → Bool} {f₁ : α → α} {l : List α} {i : Nat}
    {r r' : α} (hr : l[i]? = some r)
    (hr' : (updateFirst p₁ f₁ l)[i]? = some r') :
    r' = r ∨ (l.find? p₁ = some r ∧ r' = f₁ r) := by
  rcases getElem?_updateFirst l i with h1 | ⟨a, hfind1, hget1, -, hupd1⟩
  · rw [h1, hr] at hr'
    cases hr'
    left
    rfl
  · rw [hr] at hget1
    cases hget1
    rw [hupd1] at hr'
    cases hr'
    right
    exact ⟨hfind1, rfl⟩

theorem getElem?_two_updates {p₁ p₂ : α → Bool} {f₁ f₂ : α → α} {l : List α} {i : Nat}
    {r r' : α} (hr : l[i]? = some r)
    (hr' : (updateFirst p₂ f₂ (updateFirst p₁ f₁ l))[i]? = some r') :
    r' = r ∨ r' = f₂ r
      ∨ (l.find? p₁ = some r ∧ (r' = f₁ r ∨ r' = f₂ (f₁ r))) := by
  rcases getElem?_updateFirst (updateFirst p₁ f₁ l) i with h2 | ⟨b, hfind2, hget2, -, hupd2⟩
  · rw [h2] at hr'
    rcases getElem?_one_update hr hr' with h | ⟨hf, h⟩
    · left; exact h
    · right; right; exact ⟨hf, .inl h⟩
  · rw [hupd2] at hr'
    cases hr'
    rcases getElem?_one_update hr hget2 with h | ⟨hf, h⟩
    · subst h
      right; left; rfl
    · subst h
      right; right; exact ⟨hf, .inr rfl⟩

theorem respStep_stepDb :
    ∀ (db : Db) (op : Op) (i : Nat) (r r' : TestResponse),
      db.responses[i]? = some r → (stepDb db op).responses[i]? = some r' →
      respStep r r' := by
  intro db op i r r' hr hr'
  cases op with
  | start uid stp now =>
    simp only [stepDb] at hr'
    cases hres : startAssessment db uid stp now with
    | error e =>
      rw [hres] at hr'
      try simp only [] at hr'
      rw [hr] at hr'
      cases hr'
      exact respStep_refl r
    | ok p =>
      obtain ⟨db1, out1⟩ := p
      rw [hres] at hr'
      try simp only [] at hr'
      unfold startAssessment at hres
      split at hres
      · cases hres
      · split at hres
        · simp only [Except.ok.injEq, Prod.mk.injEq] at hres
          obtain ⟨hdb, -⟩ := hres
          subst hdb
          rw [hr] at hr'
          cases hr'
          exact respStep_refl r
        · try simp only [] at hres
          split at hres
          · cases hres
          · simp only [Except.ok.injEq, Prod.mk.injEq] at hres
            obtain ⟨hdb, -⟩ := hres
            rw [← hdb] at hr'
            try dsimp only [] at hr'
            rw [List.getElem?_append, if_pos (List.getElem?_eq_some.mp hr).1, hr] at hr'
            cases hr'
            exact respStep_refl r
  | submit tid qid sel ts now =>
    simp only [stepDb] at hr'
    cases hres : submitAnswer db tid qid sel ts now with
    | error e =>
      rw [hres] at hr'
      try simp only [] at hr'
      rw [hr] at hr'
      cases hr'
      exact respStep_refl r
    | ok p =>
      obtain ⟨db1, out1⟩ := p
      rw [hres] at hr'
      try simp only [] at hr'
      unfold submitAnswer at hres
      split at hres
      · cases hres
      · rename_i test hft
        split at hres
        · cases hres
        · split at hres
          · cases hres
          · split at hres
            · cases hres
            · rename_i resp hfr
              split at hres
              · cases hres
              · rename_i hsel
                have hselnone : resp.selectedOptionIndex = none := by
                  simpa using hsel
                try simp only [] at hres
                split at hres
                · simp only [Except.ok.injEq, Prod.mk.injEq] at hres
                  obtain ⟨hdb, -⟩ := hres
                  subst hdb
                  rcases getElem?_two_updates hr hr' with h | h | ⟨hf, h⟩
                  · rw [h]; exact respStep_refl r
                  · subst h
                    exact respStep_stamp now (respStep_refl r)
                  · rw [show findResponse db tid qid
                        = db.responses.find?
                            (fun x => x.testId == tid && x.questionId == qid)
                        from rfl] at hfr
                    rw [hfr] at hf
                    have hre : resp = r := Option.some.inj hf
                    have hselr : r.selectedOptionIndex = none := hre ▸ hselnone
                    rcases h with h | h
                    · subst h
                      exact ⟨rfl, rfl, .inr (.inl ⟨hselr, rfl, rfl⟩)⟩
                    · subst h
                      exact respStep_stamp now
                        ⟨rfl, rfl, .inr (.inl ⟨hselr, rfl, rfl⟩)⟩
                · simp only [Except.ok.injEq, Prod.mk.injEq] at hres
                  obtain ⟨hdb, -⟩ := hres
                  subst hdb
                  rcases getElem?_one_update hr hr' with h | ⟨hf, h⟩
                  · rw [h]; exact respStep_refl r
                  · rw [show findResponse db tid qid
                        = db.responses.find?
                            (fun x => x.testId == tid && x.questionId == qid)
                        from rfl] at hfr
                    rw [hfr] at hf
                    have hre : resp = r := Option.some.inj hf
                    have hselr : r.selectedOptionIndex = none := hre ▸ hselnone
                    subst h
                    exact ⟨rfl, rfl, .inr (.inl ⟨hselr, rfl, rfl⟩)⟩
  | skip tid now =>
    simp only [stepDb] at hr'
    cases hres : skipQuestion db tid now with
    | error e =>
      rw [hres] at hr'
      try simp only [] at hr'
      rw [hr] at hr'
      cases hr'
      exact respStep_refl r
    | ok p =>
      obtain ⟨db1, out1⟩ := p
      rw [hres] at hr'
      try simp only [] at hr'
      unfold skipQuestion at hres
      split at hres
      · cases hres
      · rename_i test hft
        split at hres
        · cases hres
        · split at hres
          · cases hres
          · rename_i resp hfro
            split at hres
            · cases hres
            · rename_i hguard
              have hg : resp.selectedOptionIndex = none ∧ resp.isSkipped = false := by
                constructor
                · by_cases hc : resp.selectedOptionIndex = none
                  · exact hc
                  · exact absurd (by simp [hc]) hguard
                · by_cases hc : resp.isSkipped = false
                  · exact hc
                  · exact absurd (by simp [eq_true_of_ne_false hc]) hguard
              try simp only [] at hres
              split at hres
              · simp only [Except.ok.injEq, Prod.mk.injEq] at hres
                obtain ⟨hdb, -⟩ := hres
                subst hdb
                rcases getElem?_two_updates hr hr' with h | h | ⟨hf, h⟩
                · rw [h]; exact respStep_refl r
                · subst h
                  exact respStep_stamp now (respStep_refl r)
                · rw [show findResponseByOrder db tid test.currentQuestionIndex
                      = db.responses.find?
                          (fun x => x.testId == tid
                            && x.questionOrder == test.currentQuestionIndex)
                      from rfl] at hfro
                  rw [hfro] at hf
                  have hre : resp = r := Option.some.inj hf
                  have hgr : r.selectedOptionIndex = none ∧ r.isSkipped = false := hre ▸ hg
                  rcases h with h | h
                  · subst h
                    exact ⟨rfl, rfl, .inr (.inr ⟨hgr.1, hgr.2, hgr.1, rfl⟩)⟩
                  · subst h
                    exact respStep_stamp now
                      ⟨rfl, rfl, .inr (.inr ⟨hgr.1, hgr.2, hgr.1, rfl⟩)⟩
              · simp only [Except.ok.injEq, Prod.mk.injEq] at hres
                obtain ⟨hdb, -⟩ := hres
                subst hdb
                rcases getElem?_one_update hr hr' with h | ⟨hf, h⟩
                · rw [h]; exact respStep_refl r
                · rw [show findResponseByOrder db tid test.currentQuestionIndex
                      = db.responses.find?
                          (fun x => x.testId == tid
                            && x.questionOrder == test.currentQuestionIndex)
                      from rfl] at hfro
                  rw [hfro] at hf
                  have hre : resp = r := Option.some.inj hf
                  have hgr : r.selectedOptionIndex = none ∧ r.isSkipped = false := hre ▸ hg
                  subst h
                  exact ⟨rfl, rfl, .inr (.inr ⟨hgr.1, hgr.2, hgr.1, rfl⟩)⟩
  | navigate tid direction now =>
    simp only [stepDb] at hr'
    cases hres : navigateQuestion db tid direction now with
    | error e =>
      rw [hres] at hr'
      try simp only [] at hr'
      rw [hr] at hr'
      cases hr'
      exact respStep_refl r
    | ok p =>
      obtain ⟨db1, out1⟩ := p
      rw [hres] at hr'
      try simp only [] at hr'
      unfold navigateQuestion at hres
      split at hres
      · cases hres
      · split at hres
        · cases hres
        · split at hres
          · -- direction = next
            split at hres
            · -- some current response
              split at hres
              · -- advance condition holds
                try simp only [] at hres
                split at hres
                · cases hres
                · simp only [Except.ok.injEq, Prod.mk.injEq] at hres
                  obtain ⟨hdb, -⟩ := hres
                  rw [← hdb] at hr'
                  try simp only [saveTest] at hr'
                  rw [hr] at hr'
                  cases hr'
                  exact respStep_refl r
              · try simp only [] at hres
                split at hres
                · cases hres
                · cases hres
            · simp at hres
          · -- direction = previous
            split at hres
            · simp only [Except.ok.injEq, Prod.mk.injEq] at hres
              obtain ⟨hdb, -⟩ := hres
              rw [← hdb] at hr'
              try simp only [saveTest] at hr'
              rw [hr] at hr'
              cases hr'
              exact respStep_refl r
            · cases hres
  | complete tid tts now =>
    simp only [stepDb] at hr'
    cases hres : completeAssessment db tid tts now with
    | error e =>
      rw [hres] at hr'
      try simp only [] at hr'
      rw [hr] at hr'
      cases hr'
      exact respStep_refl r
    | ok p =>
      obtain ⟨db1, out1⟩ := p
      rw [hres] at hr'
      try simp only [] at hr'
      unfold completeAssessment at hres
      split at hres
      · cases hres
      · split at hres
        · cases hres
        · try simp only [] at hres
          split at hres
          · cases hres
          · simp only [Except.ok.injEq, Prod.mk.injEq] at hres
            obtain ⟨hdb, -⟩ := hres
            rw [← hdb] at hr'
            try dsimp only [] at hr'
            rw [hr] at hr'
            cases hr'
            exact respStep_refl r

/-- C3 counterexample: the response for question 10 is skipped, yet
submitAnswer on it succeeds and turns it into an answered response — a
skipped response CAN become answered, refuting the claim's transition
invariant. -/
theorem c3_skipped_then_answered_counterexample :
    (findResponse dbSkipped 100 10).map (fun r => (r.isSkipped, r.selectedOptionIndex))
        = some (true, none)
    ∧ submitAnswer dbSkipped 100 10 0 3 2
        = .ok (stepDb dbSkipped (.submit 100 10 0 3 2),
            { isCorrect := true, currentQuestionIndex := 1, isLastQuestion := true,
              autoAdvanced := true })
    ∧ (findResponse (stepDb dbSkipped (.submit 100 10 0 3 2)) 100 10).map
        (fun r => (r.isSkipped, r.selectedOptionIndex)) = some (false, some 0) :=
  ⟨rfl, rfl, rfl⟩

/-- C3 (amended): for every (sessionId, questionId) pair at most one response
row exists; under any single engine operation a response row keeps its
identity and makes only these transitions: unchanged resolution, unanswered
to answered, or unanswered-unskipped to skipped — so a response never returns
to unanswered and an answered response never changes, but a skipped response
may still become answered (submitAnswer only rejects already-answered
questions). -/
theorem c3_response_transitions :
    (∀ init db : Db, InitOk init → Reachable init db →
      (db.responses.map (fun r => (r.testId, r.questionId))).Nodup)
    ∧ (∀ (db : Db) (op : Op) (i : Nat) (r r' : TestResponse),
        db.responses[i]? = some r → (stepDb db op).responses[i]? = some r' →
        respStep r r') :=
  ⟨fun _ _ hinit hreach => (reachable_wf hinit hreach).2.2.2.2.2.2.2.2,
   respStep_stepDb⟩

/-- Witness for C3 (amended): uniqueness of the pairs in the concrete skipped
store, and the concrete skip transition satisfies respStep. -/
theorem c3_witness :
    (dbSkipped.responses.map (fun r => (r.testId, r.questionId))).Nodup
    ∧ respStep resp10Started resp10Skipped :=
  ⟨c3_response_transitions.1 db0 dbSkipped (by decide) reach_dbSkipped,
   c3_response_transitions.2 dbStarted (.skip 100 1) 0 resp10Started resp10Skipped
     rfl rfl⟩

/-- C6: the user's highestLevelAchieved is a monotonic ratchet —
shouldUpdateUserLevel accepts exactly the strictly-higher levels in the order
A1<A2<B1<B2<C1<C2 (or any level when none is stored), and completeAssessment
either leaves a user's stored level unchanged or raises it to a strictly
higher level; a stored level is never downgraded. -/
theorem c6_highest_level_ratchet :
    (∀ newLevel, shouldUpdateUserLevel none newLevel = true)
    ∧ (∀ cur newLevel, shouldUpdateUserLevel (some cur) newLevel = true
        ↔ levelOrder.indexOf cur < levelOrder.indexOf newLevel)
    ∧ (∀ (db db' : Db) (tid tts now : Nat) (out : CompleteOut) (i : Nat) (u u' : User),
        completeAssessment db tid tts now = .ok (db', out) →
        db.users[i]? = some u → db'.users[i]? = some u' →
        u'.highestLevelAchieved = u.highestLevelAchieved
          ∨ ∃ l, u'.highestLevelAchieved = some l
              ∧ (u.highestLevelAchieved = none
                  ∨ ∃ c, u.highestLevelAchieved = some c
                      ∧ levelOrder.indexOf c < levelOrder.indexOf l)) := by
  refine ⟨fun _ => rfl, ?_, ?_⟩
  · intro cur newLevel
    simp [shouldUpdateUserLevel]
  · intro db db' tid tts now out i u u' h hu hu'
    unfold completeAssessment at h
    split at h
    · cases h
    · rename_i test hft
      split at h
      · cases h
      · try simp only [] at h
        split at h
        · cases h
        · rename_i user hfu
          simp only [Except.ok.injEq, Prod.mk.injEq] at h
          obtain ⟨hdb, -⟩ := h
          rw [← hdb] at hu'
          try dsimp only [] at hu'
          rcases getElem?_one_update hu hu' with hh | ⟨hfind, hh⟩
          · left
            rw [hh]
          · rw [hfu] at hfind
            have hue : user = u := Option.some.inj hfind
            subst hue
            rw [hh]
            dsimp only
            split
            · rename_i l _
              split
              · rename_i hsh
                right
                refine ⟨l, rfl, ?_⟩
                cases hcur : user.highestLevelAchieved with
                | none => exact Or.inl rfl
                | some c =>
                  right
                  refine ⟨c, rfl, ?_⟩
                  rw [hcur] at hsh
                  simpa [shouldUpdateUserLevel] using hsh
              · left
                rfl
            · left
              rfl

theorem checkUserEligibility_append {db db₂ : Db} {uid stp : Nat} {u : Unit} (t : Test)
    (h : checkUserEligibility db uid stp = .ok u)
    (hu : db₂.users = db.users) (ht : db₂.tests = db.tests ++ [t]) :
    checkUserEligibility db₂ uid stp = .ok u := by
  unfold checkUserEligibility at h ⊢
  rw [hu, ht]
  split at h
  · cases h
  · rename_i user hfu
    split at h
    · cases h
    · rename_i hbl
      rw [if_neg hbl]
      split at h
      · rename_i hstp
        rw [if_pos hstp]
        split at h
        · cases h
        · rename_i w hw
          rw [List.find?_append, hw]
          try exact h
      · rename_i hstp
        rw [if_neg hstp]
        try exact h

theorem start_second_call {db₂ : Db} {uid stp now₂ : Nat} {u : Unit} {activeTest : Test}
    (helig : checkUserEligibility db₂ uid stp = .ok u)
    (hact : db₂.tests.find? (fun t => t.userId == uid && t.step == stp
        && t.status == TestStatus.in_progress) = some activeTest) :
    startAssessment db₂ uid stp now₂
      = .ok (db₂,
        { message := "Assessment already in progress"
          testId := activeTest.id
          currentQuestionIndex := activeTest.currentQuestionIndex
          totalQuestions := activeTest.totalQuestions
          timeElapsed := some ((now₂ - activeTest.startedAt) / 1000)
          questionsAnswered := some activeTest.questionsAnswered }) := by
  unfold startAssessment
  simp only [helig, hact]

theorem stepDb_start_of_ok {db db' : Db} {uid stp now : Nat} {o : StartOut}
    (h : startAssessment db uid stp now = .ok (db', o)) :
    stepDb db (.start uid stp now) = db' := by
  simp only [stepDb, h]

/-- C7: startAssessment is idempotent while a session is open — after any
successful call, a second call with the same user and step (and no
intervening completion) succeeds, returns the same session id and question
count, and leaves the store exactly as it was: no new session record and no
new response rows. -/
theorem c7_startAssessment_idempotent :
    ∀ (db db' : Db) (uid stp now now₂ : Nat) (out : StartOut),
      startAssessment db uid stp now = .ok (db', out) →
      ∃ out2 : StartOut,
        startAssessment db' uid stp now₂ = .ok (db', out2)
        ∧ out2.testId = out.testId
        ∧ out2.totalQuestions = out.totalQuestions
        ∧ stepDb db' (.start uid stp now₂) = db' := by
  intro db db' uid stp now now₂ out h
  unfold startAssessment at h
  split at h
  · cases h
  · rename_i uu helig
    split at h
    · rename_i activeTest hact
      simp only [Except.ok.injEq, Prod.mk.injEq] at h
      obtain ⟨hdb, hout⟩ := h
      subst hdb
      refine ⟨_, start_second_call helig hact, ?_, ?_,
        stepDb_start_of_ok (start_second_call helig hact)⟩
      · rw [← hout]
      · rw [← hout]
    · rename_i hact
      try simp only [] at h
      split at h
      · cases h
      · rename_i hlen
        simp only [Except.ok.injEq, Prod.mk.injEq] at h
        obtain ⟨hdb, hout⟩ := h
        obtain ⟨nt, ht2, hntuid, hntstep, hntstatus, hntid, hnttq⟩ :
            ∃ nt : Test, db'.tests = db.tests ++ [nt]
              ∧ nt.userId = uid ∧ nt.step = stp ∧ nt.status = .in_progress
              ∧ nt.id = out.testId ∧ nt.totalQuestions = out.totalQuestions := by
          rw [← hdb, ← hout]
          exact ⟨_, rfl, rfl, rfl, rfl, rfl, rfl⟩
        have hu2 : db'.users = db.users := by rw [← hdb]
        have helig2 : checkUserEligibility db' uid stp = .ok uu :=
          checkUserEligibility_append nt helig hu2 ht2
        have hp : (nt.userId == uid && nt.step == stp
            && nt.status == TestStatus.in_progress) = true := by
          rw [hntuid, hntstep, hntstatus]
          simp
        have hact2 : db'.tests.find? (fun t => t.userId == uid && t.step == stp
            && t.status == TestStatus.in_progress) = some nt := by
          rw [ht2, List.find?_append, hact, Option.none_or]
          simp only [List.find?_cons, hp]
        refine ⟨_, start_second_call helig2 hact2, ?_, ?_,
          stepDb_start_of_ok (start_second_call helig2 hact2)⟩
        · exact hntid
        · exact hnttq

/-- Witness for C7: after user 1 starts step 1, a second start call at a
later time returns the same session id 100 and the same 2-question session,
and the store is untouched. -/
theorem c7_witness :
    ∃ out2 : StartOut,
      startAssessment dbStarted 1 1 5 = .ok (dbStarted, out2)
      ∧ out2.testId = 100
      ∧ out2.totalQuestions = 2
      ∧ stepDb dbStarted (.start 1 1 5) = dbStarted := by
  obtain ⟨o2, h2, hid2, htq2, hstep⟩ :=
    c7_startAssessment_idempotent db0 dbStarted 1 1 0 5 _ rfl
  refine ⟨o2, h2, ?_, ?_, hstep⟩
  · rw [hid2]
    rfl
  · rw [htq2]
    rfl

/-- C2: on every reachable store a session owns exactly totalQuestions
response rows (one per question, fixed at creation), and completeAssessment
stores and reports score = round(100 * correctAnswers / N) with N the
session's totalQuestions, where correctAnswers counts only responses with
isCorrect = true (skipped and never-visited rows count as incorrect); in
particular 38 correct out of N = 44 rounds to 86. -/
theorem c2_completion_score :
    (∀ init db : Db, InitOk init → Reachable init db →
      ∀ t ∈ db.tests, responseCount db t.id = t.totalQuestions)
    ∧ (∀ init db : Db, InitOk init → Reachable init db →
        ∀ (db' : Db) (tid tts now : Nat) (out : CompleteOut) (t : Test),
          findTest db tid = some t →
          completeAssessment db tid tts now = .ok (db', out) →
          out.score = natRound
            (((db.responses.filter (fun r => r.testId == tid)).filter
                (fun r => r.isCorrect == some true)).length * 100)
            t.totalQuestions
          ∧ ∃ t', findTest db' tid = some t' ∧ t'.score = some out.score)
    ∧ natRound (38 * 100) 44 = 86 := by
  refine ⟨fun _ _ hinit hreach t ht => (reachable_wf hinit hreach).2.2.2.2.1 t ht,
    ?_, by decide⟩
  intro init db hinit hreach db' tid tts now out t hft h
  have hftu : db.tests.find? (fun x => x.id == tid) = some t := hft
  have hbt : (t.id == tid) = true :=
    @List.find?_some _ (fun x => x.id == tid) t db.tests hftu
  have hid : t.id = tid := by simpa using hbt
  have hmem : t ∈ db.tests := List.mem_of_find?_eq_some hftu
  have hrc : db.responses.countP (fun r => r.testId == t.id) = t.totalQuestions :=
    (reachable_wf hinit hreach).2.2.2.2.1 t hmem
  have hlen : (db.responses.filter (fun r => r.testId == tid)).length
      = t.totalQuestions := by
    rw [← hid, ← List.countP_eq_length_filter]
    exact hrc
  unfold completeAssessment at h
  split at h
  · cases h
  · rename_i test hft2
    split at h
    · cases h
    · try simp only [] at h
      split at h
      · cases h
      · rename_i user hfu
        simp only [Except.ok.injEq, Prod.mk.injEq] at h
        obtain ⟨hdb, hout⟩ := h
        have hte : test = t := Option.some.inj (hft2 ▸ hft)
        subst hte
        constructor
        · rw [← hout]
          dsimp only
          rw [hlen]
        · rw [← hdb, ← hout]
          dsimp only
          have hft' : db.tests.find? (fun x => x.id == tid) = some test := hft2
          exact ⟨_, find?_updateFirst_self hft' hbt, rfl⟩

/-- Witness for C2: completing the concrete 50% session stores and reports
score 50 = round(100 * 1 / 2), and the session owns exactly its two response
rows. -/
theorem c2_witness :
    responseCount dbBoth testBoth.id = testBoth.totalQuestions
    ∧ ((50 : Nat) = natRound
        (((dbBoth.responses.filter (fun r => r.testId == 100)).filter
            (fun r => r.isCorrect == some true)).length * 100)
        testBoth.totalQuestions
      ∧ ∃ t', findTest (stepDb dbBoth (.complete 100 60 10)) 100 = some t'
          ∧ t'.score = some 50) :=
  ⟨c2_completion_score.1 db0 dbBoth (by decide) reach_dbBoth testBoth (by decide),
   c2_completion_score.2.1 db0 dbBoth (by decide) reach_dbBoth
     (stepDb dbBoth (.complete 100 60 10)) 100 60 10 _ testBoth rfl rfl⟩

/-- Witness for C6: any level beats an empty record; A2 does not beat a stored
B1; and completing user 2's 50% session (level A2 achieved) leaves the stored
B1 unchanged. -/
theorem c6_witness :
    shouldUpdateUserLevel none .A2 = true
    ∧ (shouldUpdateUserLevel (some .B1) .A2 = true
        ↔ levelOrder.indexOf CompetencyLevel.B1 < levelOrder.indexOf CompetencyLevel.A2)
    ∧ (userB.highestLevelAchieved = userB.highestLevelAchieved
        ∨ ∃ l, userB.highestLevelAchieved = some l
            ∧ (userB.highestLevelAchieved = none
                ∨ ∃ c, userB.highestLevelAchieved = some c
                    ∧ levelOrder.indexOf c < levelOrder.indexOf l)) :=
  ⟨c6_highest_level_ratchet.1 .A2,
   c6_highest_level_ratchet.2.1 .B1 .A2,
   c6_highest_level_ratchet.2.2 dbBothB dbDoneB 100 60 10 _ 1 userB userB rfl rfl rfl⟩

end JobTask
